import Mathlib

set_option maxRecDepth 100000

/-!
Verification of the Document Layout Reconstruction Engine of this repository
(`magic_pdf`).  The Python sources are shallowly embedded: bounding-box
coordinates (Python floats) are modelled as exact rationals, dict-shaped
blocks/spans as structures with decidable equality (Python `==`/`!=`/`remove`
compare dicts and lists by value, which matches structural equality of the
embedded values), and in-place list mutation as explicit state passing.
Each embedded definition carries the name of the source function it
translates.
-/

/-- Axis-aligned bounding box `(x0, y0, x1, y1)` in page coordinates,
as used throughout `magic_pdf/libs/boxbase.py`. -/
structure BBox where
  x0 : ℚ
  y0 : ℚ
  x1 : ℚ
  y1 : ℚ
deriving DecidableEq, Repr

/-- Area `(x1 - x0) * (y1 - y0)` of a bbox (`box_area` in boxbase.py). -/
def box_area (b : BBox) : ℚ := (b.x1 - b.x0) * (b.y1 - b.y0)

/-- The bbox invariant of the data model: `x0 ≤ x1 ∧ y0 ≤ y1`. -/
def BBox.valid (b : BBox) : Prop := b.x0 ≤ b.x1 ∧ b.y0 ≤ b.y1

instance (b : BBox) : Decidable b.valid := by
  unfold BBox.valid; infer_instance

/-- Embedding of `boxbase.calculate_iou`: intersection over union, with the
source's two early returns (no intersection, or a degenerate operand). -/
def calculate_iou (bbox1 bbox2 : BBox) : ℚ :=
  let x_left := max bbox1.x0 bbox2.x0
  let y_top := max bbox1.y0 bbox2.y0
  let x_right := min bbox1.x1 bbox2.x1
  let y_bottom := min bbox1.y1 bbox2.y1
  if x_right < x_left ∨ y_bottom < y_top then 0
  else
    let intersection_area := (x_right - x_left) * (y_bottom - y_top)
    let bbox1_area := (bbox1.x1 - bbox1.x0) * (bbox1.y1 - bbox1.y0)
    let bbox2_area := (bbox2.x1 - bbox2.x0) * (bbox2.y1 - bbox2.y0)
    if bbox1_area = 0 ∨ bbox2_area = 0 then 0
    else intersection_area / (bbox1_area + bbox2_area - intersection_area)

/-- Embedding of `boxbase.calculate_overlap_area_2_minbox_area_ratio`:
intersection area over the area of the smaller box. -/
def calculate_overlap_area_2_minbox_area_ratio (bbox1 bbox2 : BBox) : ℚ :=
  let x_left := max bbox1.x0 bbox2.x0
  let y_top := max bbox1.y0 bbox2.y0
  let x_right := min bbox1.x1 bbox2.x1
  let y_bottom := min bbox1.y1 bbox2.y1
  if x_right < x_left ∨ y_bottom < y_top then 0
  else
    let intersection_area := (x_right - x_left) * (y_bottom - y_top)
    let min_box_area :=
      min ((bbox1.x1 - bbox1.x0) * (bbox1.y1 - bbox1.y0))
          ((bbox2.y1 - bbox2.y0) * (bbox2.x1 - bbox2.x0))
    if min_box_area = 0 then 0
    else intersection_area / min_box_area

/-- Embedding of `boxbase.calculate_overlap_area_in_bbox1_area_ratio`:
intersection area over the area of the first box. -/
def calculate_overlap_area_in_bbox1_area_ratio (bbox1 bbox2 : BBox) : ℚ :=
  let x_left := max bbox1.x0 bbox2.x0
  let y_top := max bbox1.y0 bbox2.y0
  let x_right := min bbox1.x1 bbox2.x1
  let y_bottom := min bbox1.y1 bbox2.y1
  if x_right < x_left ∨ y_bottom < y_top then 0
  else
    let intersection_area := (x_right - x_left) * (y_bottom - y_top)
    let bbox1_area := (bbox1.x1 - bbox1.x0) * (bbox1.y1 - bbox1.y0)
    if bbox1_area = 0 then 0
    else intersection_area / bbox1_area

/-- Embedding of `boxbase.get_minbox_if_overlap_by_ratio`: returns the
smaller-area box when the overlap ratio to the smaller box exceeds `ratio`. -/
def get_minbox_if_overlap_by_ratio (bbox1 bbox2 : BBox) (ratio : ℚ) :
    Option BBox :=
  let area1 := (bbox1.x1 - bbox1.x0) * (bbox1.y1 - bbox1.y0)
  let area2 := (bbox2.x1 - bbox2.x0) * (bbox2.y1 - bbox2.y0)
  let overlap_ratio := calculate_overlap_area_2_minbox_area_ratio bbox1 bbox2
  if ratio < overlap_ratio then
    if area1 ≤ area2 then some bbox1 else some bbox2
  else none

/-- Embedding of `boxbase.calculate_vertical_projection_overlap_ratio`:
x-range intersection length divided by the first block's width. -/
def calculate_vertical_projection_overlap_ratio (block1 block2 : BBox) : ℚ :=
  let x_left := max block1.x0 block2.x0
  let x_right := min block1.x1 block2.x1
  if x_right < x_left then 0
  else
    let intersection_length := x_right - x_left
    let block1_length := block1.x1 - block1.x0
    if block1_length = 0 then 0
    else intersection_length / block1_length

/-- C9: the geometry kernel's ratio metrics are total on degenerate boxes:
whenever either operand has zero area, `calculate_iou`,
`calculate_overlap_area_2_minbox_area_ratio` and
`calculate_overlap_area_in_bbox1_area_ratio` all return 0 (no division by
zero is performed); `calculate_iou` is symmetric on all pairs; and
`calculate_iou a a = 1` for every non-degenerate valid box `a`. -/
theorem C9_degenerate_total_iou_symm (a b : BBox)
    (ha : a.valid) (hb : b.valid) :
    ((box_area a = 0 ∨ box_area b = 0) →
      calculate_iou a b = 0 ∧
      calculate_overlap_area_2_minbox_area_ratio a b = 0 ∧
      calculate_overlap_area_in_bbox1_area_ratio a b = 0) ∧
    (∀ c d : BBox, calculate_iou c d = calculate_iou d c) ∧
    (box_area a ≠ 0 → calculate_iou a a = 1) := by
  obtain ⟨hax, hay⟩ := ha
  obtain ⟨hbx, hby⟩ := hb
  refine ⟨?_, ?_, ?_⟩
  · intro hz
    have hinter : ∀ w : ℚ, w = (min a.x1 b.x1 - max a.x0 b.x0) *
        (min a.y1 b.y1 - max a.y0 b.y0) →
        ¬ (min a.x1 b.x1 < max a.x0 b.x0 ∨ min a.y1 b.y1 < max a.y0 b.y0) →
        w = 0 := by
      intro w hw hlt
      push_neg at hlt
      obtain ⟨h1, h2⟩ := hlt
      -- a zero-area valid operand forces a zero-width or zero-height
      -- intersection strip
      rcases hz with hz | hz
      · unfold box_area at hz
        rcases mul_eq_zero.mp hz with h0 | h0
        · have hxa : a.x1 = a.x0 := by linarith
          have : min a.x1 b.x1 - max a.x0 b.x0 = 0 := by
            have l1 : min a.x1 b.x1 ≤ a.x1 := min_le_left _ _
            have l2 : a.x0 ≤ max a.x0 b.x0 := le_max_left _ _
            linarith
          rw [hw, this, zero_mul]
        · have hya : a.y1 = a.y0 := by linarith
          have : min a.y1 b.y1 - max a.y0 b.y0 = 0 := by
            have l1 : min a.y1 b.y1 ≤ a.y1 := min_le_left _ _
            have l2 : a.y0 ≤ max a.y0 b.y0 := le_max_left _ _
            linarith
          rw [hw, this, mul_zero]
      · unfold box_area at hz
        rcases mul_eq_zero.mp hz with h0 | h0
        · have hxb : b.x1 = b.x0 := by linarith
          have : min a.x1 b.x1 - max a.x0 b.x0 = 0 := by
            have l1 : min a.x1 b.x1 ≤ b.x1 := min_le_right _ _
            have l2 : b.x0 ≤ max a.x0 b.x0 := le_max_right _ _
            linarith
          rw [hw, this, zero_mul]
        · have hyb : b.y1 = b.y0 := by linarith
          have : min a.y1 b.y1 - max a.y0 b.y0 = 0 := by
            have l1 : min a.y1 b.y1 ≤ b.y1 := min_le_right _ _
            have l2 : b.y0 ≤ max a.y0 b.y0 := le_max_right _ _
            linarith
          rw [hw, this, mul_zero]
    refine ⟨?_, ?_, ?_⟩
    · unfold calculate_iou
      by_cases hlt : min a.x1 b.x1 < max a.x0 b.x0 ∨
          min a.y1 b.y1 < max a.y0 b.y0
      · simp only [hlt, if_pos]
      · have hz1 : box_area a = 0 ∨ box_area b = 0 := hz
        simp only [hlt, if_neg, not_false_iff]
        have : (a.x1 - a.x0) * (a.y1 - a.y0) = 0 ∨
            (b.x1 - b.x0) * (b.y1 - b.y0) = 0 := by
          unfold box_area at hz1; exact hz1
        simp only [this, if_pos]
    · unfold calculate_overlap_area_2_minbox_area_ratio
      by_cases hlt : min a.x1 b.x1 < max a.x0 b.x0 ∨
          min a.y1 b.y1 < max a.y0 b.y0
      · simp only [hlt, if_pos]
      · simp only [hlt, if_neg, not_false_iff]
        by_cases hmin : min ((a.x1 - a.x0) * (a.y1 - a.y0))
            ((b.y1 - b.y0) * (b.x1 - b.x0)) = 0
        · simp only [hmin, if_pos]
        · simp only [hmin, if_neg, not_false_iff]
          rw [hinter _ rfl hlt, zero_div]
    · unfold calculate_overlap_area_in_bbox1_area_ratio
      by_cases hlt : min a.x1 b.x1 < max a.x0 b.x0 ∨
          min a.y1 b.y1 < max a.y0 b.y0
      · simp only [hlt, if_pos]
      · simp only [hlt, if_neg, not_false_iff]
        by_cases h1 : (a.x1 - a.x0) * (a.y1 - a.y0) = 0
        · simp only [h1, if_pos]
        · simp only [h1, if_neg, not_false_iff]
          rw [hinter _ rfl hlt, zero_div]
  · intro c d
    unfold calculate_iou
    rw [min_comm c.x1 d.x1, max_comm c.x0 d.x0, min_comm c.y1 d.y1,
      max_comm c.y0 d.y0]
    by_cases hlt : min d.x1 c.x1 < max d.x0 c.x0 ∨
        min d.y1 c.y1 < max d.y0 c.y0
    · simp only [hlt, if_pos]
    · simp only [hlt, if_neg, not_false_iff]
      by_cases hz : (c.x1 - c.x0) * (c.y1 - c.y0) = 0 ∨
          (d.x1 - d.x0) * (d.y1 - d.y0) = 0
      · have hz2 : (d.x1 - d.x0) * (d.y1 - d.y0) = 0 ∨
            (c.x1 - c.x0) * (c.y1 - c.y0) = 0 := hz.symm
        simp only [hz, hz2, if_pos]
      · have hz2 : ¬ ((d.x1 - d.x0) * (d.y1 - d.y0) = 0 ∨
            (c.x1 - c.x0) * (c.y1 - c.y0) = 0) := fun h => hz h.symm
        simp only [hz, hz2, if_neg, not_false_iff]
        ring_nf
  · intro hnz
    unfold box_area at hnz
    have hw : a.x1 - a.x0 ≠ 0 := fun h => hnz (by rw [h, zero_mul])
    have hh : a.y1 - a.y0 ≠ 0 := fun h => hnz (by rw [h, mul_zero])
    have hwpos : a.x0 < a.x1 := lt_of_le_of_ne hax (fun h => hw (by rw [h]; ring))
    have hhpos : a.y0 < a.y1 := lt_of_le_of_ne hay (fun h => hh (by rw [h]; ring))
    unfold calculate_iou
    have hmx : min a.x1 a.x1 = a.x1 := min_self _
    have hMx : max a.x0 a.x0 = a.x0 := max_self _
    have hmy : min a.y1 a.y1 = a.y1 := min_self _
    have hMy : max a.y0 a.y0 = a.y0 := max_self _
    rw [hmx, hMx, hmy, hMy]
    have hlt : ¬ (a.x1 < a.x0 ∨ a.y1 < a.y0) := by
      push_neg; exact ⟨le_of_lt hwpos, le_of_lt hhpos⟩
    simp only [hlt, if_neg, not_false_iff]
    have hz : ¬ ((a.x1 - a.x0) * (a.y1 - a.y0) = 0 ∨
        (a.x1 - a.x0) * (a.y1 - a.y0) = 0) := by
      push_neg; exact ⟨hnz, hnz⟩
    simp only [hz, if_neg, not_false_iff]
    have hA : (a.x1 - a.x0) * (a.y1 - a.y0) +
        (a.x1 - a.x0) * (a.y1 - a.y0) -
        (a.x1 - a.x0) * (a.y1 - a.y0) = (a.x1 - a.x0) * (a.y1 - a.y0) := by
      ring
    rw [hA, div_self hnz]

/-- Witness for C9 at a concrete degenerate pair and a concrete
non-degenerate box. -/
theorem C9_degenerate_total_iou_symm_witness :
    (BBox.mk 0 0 0 10).valid ∧ (BBox.mk 0 0 5 5).valid ∧
    (box_area (BBox.mk 0 0 0 10) = 0 ∨ box_area (BBox.mk 0 0 5 5) = 0) ∧
    calculate_iou (BBox.mk 0 0 0 10) (BBox.mk 0 0 5 5) = 0 ∧
    box_area (BBox.mk 0 0 5 5) ≠ 0 ∧
    calculate_iou (BBox.mk 0 0 5 5) (BBox.mk 0 0 5 5) = 1 := by
  have h := C9_degenerate_total_iou_symm (BBox.mk 0 0 0 10) (BBox.mk 0 0 5 5)
    (by norm_num [BBox.valid]) (by norm_num [BBox.valid])
  have h2 := C9_degenerate_total_iou_symm (BBox.mk 0 0 5 5) (BBox.mk 0 0 0 10)
    (by norm_num [BBox.valid]) (by norm_num [BBox.valid])
  refine ⟨by norm_num [BBox.valid], by norm_num [BBox.valid],
    Or.inl (by norm_num [box_area]),
    (h.1 (Or.inl (by norm_num [box_area]))).1, by norm_num [box_area],
    h2.2.2 (by norm_num [box_area])⟩

/-- Block categories of `magic_pdf/config/ocr_content_type.py` (that module
is not under `src/`; its members are plain distinct string constants, used
by the engine only for equality tests, so an inductive with one constructor
per category is a faithful model). Modelled from the spec: "categories
include Text, Title, ImageBody/Caption/Footnote, TableBody/Caption/Footnote,
InterlineEquation, Discarded", plus the composite Image/Table blocks
produced by group reconstruction. -/
inductive BlockType where
  | Text | Title
  | ImageBody | ImageCaption | ImageFootnote
  | TableBody | TableCaption | TableFootnote
  | InterlineEquation | Discarded
  | Image | Table
deriving DecidableEq, Repr

/-- Span content categories of `magic_pdf/config/ocr_content_type.py`
(module not under `src/`; distinct string constants used for equality
tests only). Modelled from the spec: a span is "a content fragment (text
run, image, table payload, equation)". -/
inductive ContentType where
  | Text | InlineEquation | InterlineEquation | Image | Table
deriving DecidableEq, Repr

/-- Embedding of the parse-mode dispatch of `parse_page_core`
(pdf_parse_union_core_v2.py step 5): the TXT branch runs
`txt_spans_extract_v2`, the OCR branch is a no-op, anything else raises.
Parse-mode values are the `.value` strings of `SupportedPdfParseMethod`
(config/enums.py: OCR = 'ocr', TXT = 'txt'); a raised exception is an
`Except.error` carrying the exception message. -/
inductive SpanProcessingChoice where
  | txtExtract
  | passthrough
deriving DecidableEq, Repr

/-- The TXT value of `SupportedPdfParseMethod` (config/enums.py). -/
def SupportedPdfParseMethod.TXT : String := "txt"

/-- The OCR value of `SupportedPdfParseMethod` (config/enums.py). -/
def SupportedPdfParseMethod.OCR : String := "ocr"

/-- Step 5 of `parse_page_core`: mode dispatch with a raise on anything
that is neither the TXT nor the OCR mode. -/
def parse_page_core_mode_dispatch (parse_mode : String) :
    Except String SpanProcessingChoice :=
  if parse_mode = SupportedPdfParseMethod.TXT then
    Except.ok SpanProcessingChoice.txtExtract
  else if parse_mode = SupportedPdfParseMethod.OCR then
    Except.ok SpanProcessingChoice.passthrough
  else
    Except.error "parse_mode must be txt or ocr"

/-- C8: for every parse-mode value that is neither the text mode nor the
OCR mode, per-page parsing raises immediately (an `Except.error` with the
source's message) rather than silently defaulting to either mode; for the
two valid modes no exception is raised. -/
theorem C8_parse_mode_fatal (parse_mode : String)
    (htxt : parse_mode ≠ SupportedPdfParseMethod.TXT)
    (hocr : parse_mode ≠ SupportedPdfParseMethod.OCR) :
    parse_page_core_mode_dispatch parse_mode =
      Except.error "parse_mode must be txt or ocr" ∧
    parse_page_core_mode_dispatch SupportedPdfParseMethod.TXT =
      Except.ok SpanProcessingChoice.txtExtract ∧
    parse_page_core_mode_dispatch SupportedPdfParseMethod.OCR =
      Except.ok SpanProcessingChoice.passthrough := by
  refine ⟨?_, ?_, ?_⟩
  · unfold parse_page_core_mode_dispatch
    rw [if_neg htxt, if_neg hocr]
  · unfold parse_page_core_mode_dispatch
    rw [if_pos rfl]
  · unfold parse_page_core_mode_dispatch
    rw [if_neg (by decide), if_pos rfl]

/-- Witness for C8 at the concrete invalid mode string "auto". -/
theorem C8_parse_mode_fatal_witness :
    parse_page_core_mode_dispatch "auto" =
      Except.error "parse_mode must be txt or ocr" :=
  (C8_parse_mode_fatal "auto" (by decide) (by decide)).1

/-- A text span at the point where `txt_spans_extract_v2` routes it to the
OCR fallback: bbox, materialized `content` (from `chars_to_content`), and
an optional OCR confidence `score`. -/
structure OcrSpan where
  bbox : BBox
  content : String
  score : Option ℚ
deriving DecidableEq, Repr

/-- The span height set by `txt_spans_extract_v2` (`span['bbox'][3] -
span['bbox'][1]`). -/
def ocr_span_height (s : OcrSpan) : ℚ := s.bbox.y1 - s.bbox.y0

/-- The span width set by `txt_spans_extract_v2` (`span['bbox'][2] -
span['bbox'][0]`). -/
def ocr_span_width (s : OcrSpan) : ℚ := s.bbox.x1 - s.bbox.x0

/-- The probably-empty flag of `fill_char_in_spans` (line 220):
`len(span['content']) * span['height'] < span['width'] * 0.5`; spans
satisfying it are collected into `need_ocr_spans`. -/
def probably_empty_span (s : OcrSpan) : Prop :=
  (s.content.length : ℚ) * ocr_span_height s < ocr_span_width s * (1 / 2)

/-- Embedding of the per-span OCR fallback of `txt_spans_extract_v2`
(lines 437-456).  External collaborators are passed in as data: `contrast`
is `calculate_contrast` of the cropped span image, and `ocr_res` is the OCR
collaborator's return value (`ocr_model.ocr(span_img, det=False)`); a falsy
Python result (`None` or `[]`) is modelled as `[]`.  The result is `none`
when the span is removed from the span list (`spans.remove(span)`), and
`some s` when the span stays in the list with final fields `s`. -/
def txt_spans_extract_v2_ocr_fallback (contrast : ℚ)
    (ocr_res : List (List (String × ℚ))) (span : OcrSpan) : Option OcrSpan :=
  if contrast ≤ 20 / 100 then none
  else
    match ocr_res with
    | [] => some span
    | r0 :: _ =>
      match r0 with
      | [] => some span
      | (ocr_text, ocr_score) :: _ =>
        if 1 / 2 < ocr_score ∧ 0 < ocr_text.length then
          some { span with content := ocr_text, score := some ocr_score }
        else none

/-- Counterexample to C6: a probably-empty span whose crop has contrast
above 0.20 and for which the OCR collaborator returns no candidate at all
(a falsy/empty result) is KEPT in the span list unchanged, whereas the
claim says that in every case other than a confident non-empty OCR result
the span is dropped.  The source (lines 448-449) simply falls through when
`ocr_res` is falsy or its first entry is empty, so no removal happens. -/
theorem C6_counterexample :
    probably_empty_span (OcrSpan.mk (BBox.mk 0 0 10 1) "" none) ∧
    (1 : ℚ) > 20 / 100 ∧
    txt_spans_extract_v2_ocr_fallback 1 []
        (OcrSpan.mk (BBox.mk 0 0 10 1) "" none) =
      some (OcrSpan.mk (BBox.mk 0 0 10 1) "" none) ∧
    txt_spans_extract_v2_ocr_fallback 1 []
        (OcrSpan.mk (BBox.mk 0 0 10 1) "" none) ≠ none := by
  refine ⟨?_, by norm_num, ?_, ?_⟩
  · unfold probably_empty_span ocr_span_height ocr_span_width
    norm_num
  · unfold txt_spans_extract_v2_ocr_fallback
    norm_num
  · unfold txt_spans_extract_v2_ocr_fallback
    norm_num
    simp

/-- C6 (amended): for every probably-empty text span routed to the OCR
fallback, the span is removed without invoking OCR when the cropped
image's contrast is ≤ 0.20; otherwise, when the OCR collaborator returns a
candidate `(text, score)`, the candidate replaces the span's content if
and only if `score > 0.5` and the text is non-empty, and the span is
dropped when that test fails; but when the OCR collaborator returns no
candidate at all (falsy result or an empty first entry) the span is kept
in the span list unchanged, not dropped. -/
theorem C6_ocr_fallback_behavior (contrast : ℚ)
    (ocr_res : List (List (String × ℚ))) (span : OcrSpan)
    (hflag : probably_empty_span span) :
    (contrast ≤ 20 / 100 →
      txt_spans_extract_v2_ocr_fallback contrast ocr_res span = none) ∧
    (20 / 100 < contrast →
      (∀ ocr_text ocr_score tl rest,
        ocr_res = ((ocr_text, ocr_score) :: tl) :: rest →
        ((1 / 2 < ocr_score ∧ 0 < ocr_text.length →
          txt_spans_extract_v2_ocr_fallback contrast ocr_res span =
            some { span with content := ocr_text, score := some ocr_score }) ∧
         (¬ (1 / 2 < ocr_score ∧ 0 < ocr_text.length) →
          txt_spans_extract_v2_ocr_fallback contrast ocr_res span = none))) ∧
      ((ocr_res = [] ∨ ∃ rest, ocr_res = [] :: rest) →
        txt_spans_extract_v2_ocr_fallback contrast ocr_res span =
          some span)) := by
  constructor
  · intro hc
    unfold txt_spans_extract_v2_ocr_fallback
    rw [if_pos hc]
  · intro hc
    have hnc : ¬ contrast ≤ 20 / 100 := not_le.mpr hc
    constructor
    · intro ocr_text ocr_score tl rest hres
      subst hres
      constructor
      · intro hgood
        unfold txt_spans_extract_v2_ocr_fallback
        rw [if_neg hnc]
        simp only [if_pos hgood]
      · intro hbad
        unfold txt_spans_extract_v2_ocr_fallback
        rw [if_neg hnc]
        simp only [if_neg hbad]
    · rintro (hres | ⟨rest, hres⟩) <;> subst hres <;>
        · unfold txt_spans_extract_v2_ocr_fallback
          rw [if_neg hnc]

/-- Witness for C6 at concrete inputs exercising the replace branch. -/
theorem C6_ocr_fallback_behavior_witness :
    probably_empty_span (OcrSpan.mk (BBox.mk 0 0 10 1) "" none) ∧
    (20 / 100 : ℚ) < 1 ∧
    txt_spans_extract_v2_ocr_fallback 1 [[("hi", 9 / 10)]]
        (OcrSpan.mk (BBox.mk 0 0 10 1) "" none) =
      some (OcrSpan.mk (BBox.mk 0 0 10 1) "hi" (some (9 / 10))) := by
  have hflag : probably_empty_span (OcrSpan.mk (BBox.mk 0 0 10 1) "" none) := by
    unfold probably_empty_span ocr_span_height ocr_span_width; norm_num
  have h := C6_ocr_fallback_behavior 1 [[("hi", 9 / 10)]]
    (OcrSpan.mk (BBox.mk 0 0 10 1) "" none) hflag
  refine ⟨hflag, by norm_num, ?_⟩
  have h2 := ((h.2 (by norm_num)).1 "hi" (9 / 10) [] [] rfl).1
    ⟨by norm_num, by decide⟩
  exact h2

/-- A detected span as seen by `ocr_span_list_modify.py`: bbox, confidence
`score`, and an optional drop-reason `tag` (absent until a span is
dropped). -/
structure ScoredSpan where
  bbox : BBox
  score : ℚ
  tag : Option String
deriving DecidableEq, Repr

/-- Drop-reason constant `DropTag.SPAN_OVERLAP` of
`magic_pdf/config/drop_tag.py` (module not under `src/`).  Modelled from
the spec: dropped spans "are tagged with a reason"; the engine only ever
compares or stores the tag, so any fixed string is faithful. -/
def DropTag_SPAN_OVERLAP : String := "span_overlap"

/-- Python `list.remove(v)`: delete the first element equal (by value) to
`v`; no-op here when `v` is absent (the sources only call it on present
values, or guard with `if v in list`). -/
def remove_first {α : Type} [DecidableEq α] : List α → α → List α
  | [], _ => []
  | h :: t, v => if h = v then t else h :: remove_first t v

/-- One inner-loop step of `remove_overlaps_low_confidence_spans`
(ocr_span_list_modify.py lines 21-37): examine the ordered pair
`(span1, span2)` against the accumulated `dropped_spans`. -/
def rolc_pair_step (dr : List ScoredSpan) (span1 span2 : ScoredSpan) :
    List ScoredSpan :=
  if span1 ≠ span2 then
    if span1 ∈ dr ∨ span2 ∈ dr then dr
    else if 9 / 10 < calculate_iou span1.bbox span2.bbox then
      let span_need_remove :=
        if span1.score < span2.score then span1 else span2
      if span_need_remove ∉ dr then dr ++ [span_need_remove] else dr
    else dr
  else dr

/-- The `dropped_spans` list accumulated by the double loop of
`remove_overlaps_low_confidence_spans` (both loops run over the input list,
which is only mutated after the loops). -/
def rolc_dropped (spans : List ScoredSpan) : List ScoredSpan :=
  spans.foldl
    (fun dr span1 =>
      spans.foldl (fun dr2 span2 => rolc_pair_step dr2 span1 span2) dr)
    []

/-- Embedding of `remove_overlaps_low_confidence_spans`: returns the kept
spans (input minus dropped, in order) and the dropped spans tagged with
the overlap reason. -/
def remove_overlaps_low_confidence_spans (spans : List ScoredSpan) :
    List ScoredSpan × List ScoredSpan :=
  let dropped := rolc_dropped spans
  (dropped.foldl remove_first spans,
   dropped.map (fun s => { s with tag := some DropTag_SPAN_OVERLAP }))

/-- Counterexample to C10: in the three-span chain below all scores are
equal, `iou(Y1, Y2) > 0.9`, and `Y2` occurs later than `Y1`, yet the code
KEEPS `Y2` and it is `Y1` that is dropped - because `Y1` was already
dropped by the earlier pair `(Y0, Y1)` and the loop skips pairs with an
already-dropped member.  The claim's universal statement (for every such
pair the later span is dropped and the earlier kept) is therefore false. -/
theorem C10_counterexample :
    9 / 10 < calculate_iou (BBox.mk 0 0 10 105) (BBox.mk 0 6 10 106) ∧
    (ScoredSpan.mk (BBox.mk 0 0 10 105) (1 / 2) none).score =
      (ScoredSpan.mk (BBox.mk 0 6 10 106) (1 / 2) none).score ∧
    (remove_overlaps_low_confidence_spans
        [ScoredSpan.mk (BBox.mk 0 0 10 100) (1 / 2) none,
         ScoredSpan.mk (BBox.mk 0 0 10 105) (1 / 2) none,
         ScoredSpan.mk (BBox.mk 0 6 10 106) (1 / 2) none]).1 =
      [ScoredSpan.mk (BBox.mk 0 0 10 100) (1 / 2) none,
       ScoredSpan.mk (BBox.mk 0 6 10 106) (1 / 2) none] ∧
    (remove_overlaps_low_confidence_spans
        [ScoredSpan.mk (BBox.mk 0 0 10 100) (1 / 2) none,
         ScoredSpan.mk (BBox.mk 0 0 10 105) (1 / 2) none,
         ScoredSpan.mk (BBox.mk 0 6 10 106) (1 / 2) none]).2 =
      [ScoredSpan.mk (BBox.mk 0 0 10 105) (1 / 2)
        (some DropTag_SPAN_OVERLAP)] := by
  refine ⟨by norm_num [calculate_iou], by norm_num, ?_, ?_⟩ <;>
    norm_num [remove_overlaps_low_confidence_spans, rolc_dropped,
      rolc_pair_step, remove_first, calculate_iou, DropTag_SPAN_OVERLAP]

/-- C10 (amended): confidence-based span de-duplication drops, within each
examined pair whose members have not already been dropped by an earlier
pair - in particular, in any two-span list - the earlier span exactly when
its score is strictly smaller, and otherwise (ties included) the later
span; the dropped span is tagged with the overlap drop reason and the
other span is kept.  (In longer lists a span already dropped by an
earlier overlapping pair shields its partner: such pairs are skipped.) -/
theorem C10_dedup_tie_drops_later (s1 s2 : ScoredSpan) (hne : s1 ≠ s2)
    (hiou : 9 / 10 < calculate_iou s1.bbox s2.bbox) :
    (s1.score < s2.score →
      remove_overlaps_low_confidence_spans [s1, s2] =
        ([s2], [{ s1 with tag := some DropTag_SPAN_OVERLAP }])) ∧
    (¬ s1.score < s2.score →
      remove_overlaps_low_confidence_spans [s1, s2] =
        ([s1], [{ s2 with tag := some DropTag_SPAN_OVERLAP }])) := by
  have hne2 : s2 ≠ s1 := hne.symm
  constructor
  · intro hlt
    have hdr : rolc_dropped [s1, s2] = [s1] := by
      unfold rolc_dropped
      simp only [List.foldl]
      unfold rolc_pair_step
      simp [hne, hne2, hiou, hlt]
    unfold remove_overlaps_low_confidence_spans
    rw [hdr]
    simp only [List.foldl, List.map]
    unfold remove_first
    simp
  · intro hlt
    have hdr : rolc_dropped [s1, s2] = [s2] := by
      unfold rolc_dropped
      simp only [List.foldl]
      unfold rolc_pair_step
      simp [hne, hne2, hiou, hlt]
    unfold remove_overlaps_low_confidence_spans
    rw [hdr]
    simp only [List.foldl, List.map]
    simp [remove_first, hne]

/-- Witness for C10 at a concrete equal-score pair: the later span is
dropped and tagged, the earlier kept. -/
theorem C10_dedup_tie_drops_later_witness :
    remove_overlaps_low_confidence_spans
        [ScoredSpan.mk (BBox.mk 10 10 20 20) (4 / 5) none,
         ScoredSpan.mk (BBox.mk 10 10 20 21) (4 / 5) none] =
      ([ScoredSpan.mk (BBox.mk 10 10 20 20) (4 / 5) none],
       [ScoredSpan.mk (BBox.mk 10 10 20 21) (4 / 5)
         (some DropTag_SPAN_OVERLAP)]) := by
  have h := C10_dedup_tie_drops_later
    (ScoredSpan.mk (BBox.mk 10 10 20 20) (4 / 5) none)
    (ScoredSpan.mk (BBox.mk 10 10 20 21) (4 / 5) none)
    (by simp) (by norm_num [calculate_iou])
  exact h.2 (by norm_num)

/-- A row of the `all_bboxes` / `all_discarded_blocks` lists built by
`ocr_detect_all_bboxes.add_bboxes`: `[x0, y0, x1, y1, None, None, None,
block_type, None, None, None, None, score(, group_id)]`.  The constant
`None` slots carry no information, so a row is faithfully represented by
its bbox, type, score and (for image/table sub-part rows) group id; Python
compares rows by value, which matches the derived structural equality. -/
structure PBlock where
  bbox : BBox
  btype : BlockType
  score : ℚ
  group_id : Option ℕ
deriving DecidableEq, Repr

/-- Placeholder row used only as the default of `List.getD`. -/
def dummy_pblock : PBlock :=
  { bbox := BBox.mk 0 0 0 0, btype := BlockType.Text, score := 0,
    group_id := none }

/-- A content span as consumed by `ocr_dict_merge.fill_spans_in_blocks`:
bbox, content type, and payload (whose exact contents the assignment never
inspects). -/
structure CSpan where
  bbox : BBox
  stype : ContentType
  content : String
deriving DecidableEq, Repr

/-- Embedding of `ocr_dict_merge.span_block_type_compatible`. -/
def span_block_type_compatible : ContentType → BlockType → Bool
  | ContentType.Text, bt =>
    match bt with
    | BlockType.Text | BlockType.Title | BlockType.ImageCaption
    | BlockType.ImageFootnote | BlockType.TableCaption
    | BlockType.TableFootnote => true
    | _ => false
  | ContentType.InlineEquation, bt =>
    match bt with
    | BlockType.Text | BlockType.Title | BlockType.ImageCaption
    | BlockType.ImageFootnote | BlockType.TableCaption
    | BlockType.TableFootnote => true
    | _ => false
  | ContentType.InterlineEquation, bt =>
    match bt with
    | BlockType.InterlineEquation => true
    | _ => false
  | ContentType.Image, bt =>
    match bt with
    | BlockType.ImageBody => true
    | _ => false
  | ContentType.Table, bt =>
    match bt with
    | BlockType.TableBody => true
    | _ => false

/-- The six image/table sub-part categories, whose `add_bboxes` rows carry
a `group_id` (and whose `fill_spans_in_blocks` output dict records it). -/
def is_group_block_type : BlockType → Bool
  | BlockType.ImageBody | BlockType.ImageCaption | BlockType.ImageFootnote
  | BlockType.TableBody | BlockType.TableCaption
  | BlockType.TableFootnote => true
  | _ => false

/-- The span-collection test of `fill_spans_in_blocks` (line 128):
overlap ratio into the span above the threshold AND type compatibility. -/
def span_matches_block (block : PBlock) (radio : ℚ) (span : CSpan) : Bool :=
  decide (radio <
      calculate_overlap_area_in_bbox1_area_ratio span.bbox block.bbox) &&
    span_block_type_compatible span.stype block.btype

/-- A `block_dict` produced by `fill_spans_in_blocks`. -/
structure BlockWithSpans where
  btype : BlockType
  bbox : BBox
  group_id : Option ℕ
  spans : List CSpan
deriving DecidableEq, Repr

/-- Placeholder used only as the default of `List.getD`. -/
def dummy_block_with_spans : BlockWithSpans :=
  { btype := BlockType.Text, bbox := BBox.mk 0 0 0 0, group_id := none,
    spans := [] }

/-- Embedding of `ocr_dict_merge.fill_spans_in_blocks`.  The source's
per-block step collects `block_spans = [span for span in spans if test]`
and then calls `spans.remove(span)` for each collected value; since values
equal to a collected value all pass the same test and `remove` deletes by
value, the surviving pool is exactly `spans` filtered by the negated test
(order preserved), which is how the step is rendered here. -/
def fill_spans_in_blocks (blocks : List PBlock) (spans : List CSpan)
    (radio : ℚ) : List BlockWithSpans × List CSpan :=
  match blocks with
  | [] => ([], spans)
  | block :: rest =>
    let block_spans := spans.filter (span_matches_block block radio)
    let remaining := spans.filter (fun s => !(span_matches_block block radio s))
    let result := fill_spans_in_blocks rest remaining radio
    ({ btype := block.btype, bbox := block.bbox,
       group_id := if is_group_block_type block.btype then block.group_id
                   else none,
       spans := block_spans } :: result.1, result.2)

theorem fsib_length (blocks : List PBlock) (spans : List CSpan) (radio : ℚ) :
    (fill_spans_in_blocks blocks spans radio).1.length = blocks.length := by
  induction blocks generalizing spans with
  | nil => rfl
  | cons b rest ih => simp [fill_spans_in_blocks, ih]

theorem fsib_join_leftover_perm (blocks : List PBlock) (spans : List CSpan)
    (radio : ℚ) :
    List.Perm
      ((((fill_spans_in_blocks blocks spans radio).1.map
        (fun b => b.spans)).flatten) ++ (fill_spans_in_blocks blocks spans radio).2)
      spans := by
  induction blocks generalizing spans with
  | nil => simp [fill_spans_in_blocks]
  | cons b rest ih =>
    simp only [fill_spans_in_blocks, List.map_cons, List.flatten_cons,
      List.append_assoc]
    exact List.Perm.trans
      (List.Perm.append_left _
        (ih (spans.filter (fun s => !(span_matches_block b radio s)))))
      (List.filter_append_perm _ spans)

theorem fsib_get_spans_mem (blocks : List PBlock) (spans : List CSpan)
    (radio : ℚ) (i : ℕ) (hi : i < blocks.length) (s : CSpan) :
    s ∈ ((fill_spans_in_blocks blocks spans radio).1.getD i
        dummy_block_with_spans).spans ↔
      s ∈ spans ∧
      span_matches_block (blocks.getD i dummy_pblock) radio s = true ∧
      ∀ j, j < i →
        ¬ span_matches_block (blocks.getD j dummy_pblock) radio s = true := by
  induction blocks generalizing spans i with
  | nil => exact absurd hi (Nat.not_lt_zero i)
  | cons b rest ih =>
    cases i with
    | zero =>
      simp [fill_spans_in_blocks, List.mem_filter]
    | succ k =>
      have hk : k < rest.length := Nat.lt_of_succ_lt_succ hi
      simp only [fill_spans_in_blocks, List.getD_cons_succ]
      rw [ih _ _ hk]
      simp only [List.mem_filter, Bool.not_eq_true']
      constructor
      · rintro ⟨⟨hs, hnb⟩, hm, hall⟩
        refine ⟨hs, hm, ?_⟩
        intro j hj
        cases j with
        | zero =>
          simp only [List.getD_cons_zero]
          simp [hnb]
        | succ j2 =>
          simp only [List.getD_cons_succ]
          exact hall j2 (Nat.lt_of_succ_lt_succ hj)
      · rintro ⟨hs, hm, hall⟩
        have hnb := hall 0 (Nat.succ_pos k)
        simp only [List.getD_cons_zero] at hnb
        refine ⟨⟨hs, by simpa using hnb⟩, hm, ?_⟩
        intro j hj
        have := hall (j + 1) (Nat.succ_lt_succ hj)
        simpa using this

/-- C3: span assignment never double-assigns.  For every block list, span
list and threshold: the assignment produces one output block per input
block; the concatenation of all per-block span lists together with the
returned leftover spans is a permutation of the input span list; the
per-block span sets are pairwise disjoint; and a span lands in block `i`
exactly when it is an input span that passes block `i`'s overlap and
type-compatibility test and fails the test of every earlier block (first
match wins). -/
theorem C3_span_assignment_partition (blocks : List PBlock)
    (spans : List CSpan) (radio : ℚ) :
    (fill_spans_in_blocks blocks spans radio).1.length = blocks.length ∧
    List.Perm
      ((((fill_spans_in_blocks blocks spans radio).1.map
        (fun b => b.spans)).flatten) ++
        (fill_spans_in_blocks blocks spans radio).2)
      spans ∧
    (∀ i j, i < blocks.length → j < blocks.length → i ≠ j → ∀ s : CSpan,
      s ∈ ((fill_spans_in_blocks blocks spans radio).1.getD i
          dummy_block_with_spans).spans →
      s ∉ ((fill_spans_in_blocks blocks spans radio).1.getD j
          dummy_block_with_spans).spans) ∧
    (∀ i, i < blocks.length → ∀ s : CSpan,
      s ∈ ((fill_spans_in_blocks blocks spans radio).1.getD i
          dummy_block_with_spans).spans ↔
        s ∈ spans ∧
        span_matches_block (blocks.getD i dummy_pblock) radio s = true ∧
        ∀ j, j < i →
          ¬ span_matches_block (blocks.getD j dummy_pblock) radio s = true) := by
  refine ⟨fsib_length blocks spans radio, fsib_join_leftover_perm blocks spans radio,
    ?_, fun i hi s => fsib_get_spans_mem blocks spans radio i hi s⟩
  intro i j hi hj hne s hsi hsj
  rcases Nat.lt_or_ge i j with hij | hij
  · have hcj := (fsib_get_spans_mem blocks spans radio j hj s).mp hsj
    have hci := (fsib_get_spans_mem blocks spans radio i hi s).mp hsi
    exact hcj.2.2 i hij hci.2.1
  · have hij2 : j < i := lt_of_le_of_ne hij (fun h => hne h.symm)
    have hci := (fsib_get_spans_mem blocks spans radio i hi s).mp hsi
    have hcj := (fsib_get_spans_mem blocks spans radio j hj s).mp hsj
    exact hci.2.2 j hij2 hcj.2.1

/-- Witness for C3 at a concrete two-block, two-span instance: the span
overlapping both blocks is consumed by the first block only. -/
theorem C3_span_assignment_partition_witness :
    ((fill_spans_in_blocks
        [PBlock.mk (BBox.mk 0 0 10 10) BlockType.Text 1 none,
         PBlock.mk (BBox.mk 0 0 10 12) BlockType.Title 1 none]
        [CSpan.mk (BBox.mk 1 1 9 9) ContentType.Text "x"] (1 / 2)).1.getD 0
        dummy_block_with_spans).spans =
      [CSpan.mk (BBox.mk 1 1 9 9) ContentType.Text "x"] ∧
    ((fill_spans_in_blocks
        [PBlock.mk (BBox.mk 0 0 10 10) BlockType.Text 1 none,
         PBlock.mk (BBox.mk 0 0 10 12) BlockType.Title 1 none]
        [CSpan.mk (BBox.mk 1 1 9 9) ContentType.Text "x"] (1 / 2)).1.getD 1
        dummy_block_with_spans).spans = [] ∧
    (CSpan.mk (BBox.mk 1 1 9 9) ContentType.Text "x") ∉
      ((fill_spans_in_blocks
        [PBlock.mk (BBox.mk 0 0 10 10) BlockType.Text 1 none,
         PBlock.mk (BBox.mk 0 0 10 12) BlockType.Title 1 none]
        [CSpan.mk (BBox.mk 1 1 9 9) ContentType.Text "x"] (1 / 2)).1.getD 1
        dummy_block_with_spans).spans := by
  have hd := (C3_span_assignment_partition
    [PBlock.mk (BBox.mk 0 0 10 10) BlockType.Text 1 none,
     PBlock.mk (BBox.mk 0 0 10 12) BlockType.Title 1 none]
    [CSpan.mk (BBox.mk 1 1 9 9) ContentType.Text "x"] (1 / 2)).2.2.1
    0 1 (by norm_num) (by norm_num) (by norm_num)
    (CSpan.mk (BBox.mk 1 1 9 9) ContentType.Text "x")
  have h0 : ((fill_spans_in_blocks
      [PBlock.mk (BBox.mk 0 0 10 10) BlockType.Text 1 none,
       PBlock.mk (BBox.mk 0 0 10 12) BlockType.Title 1 none]
      [CSpan.mk (BBox.mk 1 1 9 9) ContentType.Text "x"] (1 / 2)).1.getD 0
      dummy_block_with_spans).spans =
      [CSpan.mk (BBox.mk 1 1 9 9) ContentType.Text "x"] := by
    norm_num [fill_spans_in_blocks, span_matches_block,
      calculate_overlap_area_in_bbox1_area_ratio, span_block_type_compatible]
  have h1 : ((fill_spans_in_blocks
      [PBlock.mk (BBox.mk 0 0 10 10) BlockType.Text 1 none,
       PBlock.mk (BBox.mk 0 0 10 12) BlockType.Title 1 none]
      [CSpan.mk (BBox.mk 1 1 9 9) ContentType.Text "x"] (1 / 2)).1.getD 1
      dummy_block_with_spans).spans = [] := by
    norm_num [fill_spans_in_blocks, span_matches_block,
      calculate_overlap_area_in_bbox1_area_ratio, span_block_type_compatible]
  exact ⟨h0, h1, hd (by rw [h0]; exact List.mem_singleton_self _)⟩

/-- An input block dict of `ocr_prepare_bboxes_for_layout_split_v2`
(`{'bbox': ..., 'score': ...}`, plus `'group_id'` for image/table
sub-parts, set by `process_groups`). -/
structure InBlock where
  bbox : BBox
  score : ℚ
  group_id : Option ℕ
deriving DecidableEq, Repr

/-- Embedding of `ocr_detect_all_bboxes.add_bboxes`: append one typed row
per input block to `bboxes`; image/table sub-part rows carry the group id,
all other rows have no group slot. -/
def add_bboxes (blocks : List InBlock) (block_type : BlockType)
    (bboxes : List PBlock) : List PBlock :=
  bboxes ++ blocks.map (fun b =>
    { bbox := b.bbox, btype := block_type, score := b.score,
      group_id := if is_group_block_type block_type then b.group_id
                  else none })

theorem remove_first_mem_of_nodup {α : Type} [DecidableEq α]
    {l : List α} (hN : l.Nodup) (v b : α) :
    b ∈ remove_first l v ↔ b ∈ l ∧ b ≠ v := by
  induction l with
  | nil => simp [remove_first]
  | cons h t ih =>
    rcases List.nodup_cons.mp hN with ⟨hh, ht⟩
    unfold remove_first
    by_cases hv : h = v
    · subst hv
      simp only [if_pos rfl]
      constructor
      · intro hb
        exact ⟨List.mem_cons_of_mem _ hb, fun he => hh (he ▸ hb)⟩
      · rintro ⟨hb, hne⟩
        rcases List.mem_cons.mp hb with rfl | hb2
        · exact absurd rfl hne
        · exact hb2
    · simp only [if_neg hv]
      constructor
      · intro hb
        rcases List.mem_cons.mp hb with rfl | hb2
        · exact ⟨List.mem_cons_self _ _, hv⟩
        · have := (ih ht).mp hb2
          exact ⟨List.mem_cons_of_mem _ this.1, this.2⟩
      · rintro ⟨hb, hne⟩
        rcases List.mem_cons.mp hb with rfl | hb2
        · exact List.mem_cons_self _ _
        · exact List.mem_cons_of_mem _ ((ih ht).mpr ⟨hb2, hne⟩)

theorem remove_first_sublist {α : Type} [DecidableEq α] (l : List α)
    (v : α) : (remove_first l v).Sublist l := by
  induction l with
  | nil => simp [remove_first]
  | cons h t ih =>
    unfold remove_first
    by_cases hv : h = v
    · simp only [if_pos hv]
      exact List.sublist_cons_self h t
    · simp only [if_neg hv]
      exact List.Sublist.cons₂ h ih

theorem remove_first_nodup {α : Type} [DecidableEq α] {l : List α}
    (hN : l.Nodup) (v : α) : (remove_first l v).Nodup :=
  List.Nodup.sublist (remove_first_sublist l v) hN

theorem foldl_remove_first_nodup {α : Type} [DecidableEq α]
    (rs : List α) {l : List α} (hN : l.Nodup) :
    (rs.foldl remove_first l).Nodup := by
  induction rs generalizing l with
  | nil => exact hN
  | cons r rs2 ih => exact ih (remove_first_nodup hN r)

theorem foldl_remove_first_mem {α : Type} [DecidableEq α]
    (rs : List α) {l : List α} (hN : l.Nodup) (b : α) :
    b ∈ rs.foldl remove_first l ↔ b ∈ l ∧ b ∉ rs := by
  induction rs generalizing l with
  | nil => simp
  | cons r rs2 ih =>
    simp only [List.foldl_cons]
    rw [ih (remove_first_nodup hN r), remove_first_mem_of_nodup hN]
    simp only [List.mem_cons]
    tauto

/-- The `need_remove` list accumulated by
`fix_text_overlap_title_blocks` (ocr_detect_all_bboxes.py lines 257-265):
titles hit by some text block with iou above 0.8, deduplicated, in
discovery order. -/
def fix_text_overlap_title_need_remove
    (text_blocks title_blocks : List PBlock) : List PBlock :=
  text_blocks.foldl
    (fun acc text_block =>
      title_blocks.foldl
        (fun acc2 title_block =>
          if 8 / 10 < calculate_iou text_block.bbox title_block.bbox ∧
              title_block ∉ acc2
          then acc2 ++ [title_block] else acc2)
        acc)
    []

/-- Embedding of `ocr_detect_all_bboxes.fix_text_overlap_title_blocks`:
collect the titles to drop, then `list.remove` each of them. -/
def fix_text_overlap_title_blocks (all_bboxes : List PBlock) :
    List PBlock :=
  let text_blocks :=
    all_bboxes.filter (fun b => decide (b.btype = BlockType.Text))
  let title_blocks :=
    all_bboxes.filter (fun b => decide (b.btype = BlockType.Title))
  (fix_text_overlap_title_need_remove text_blocks title_blocks).foldl
    remove_first all_bboxes

theorem dedup_append_fold_mem (cond : PBlock → PBlock → Prop)
    [DecidableRel cond] (titles : List PBlock) (x : PBlock)
    (acc : List PBlock) (u : PBlock) :
    u ∈ titles.foldl
        (fun acc2 ti => if cond x ti ∧ ti ∉ acc2 then acc2 ++ [ti] else acc2)
        acc ↔
      u ∈ acc ∨ (u ∈ titles ∧ cond x u) := by
  induction titles generalizing acc with
  | nil => simp
  | cons ti rest ih =>
    simp only [List.foldl_cons]
    rw [ih]
    by_cases hc : cond x ti ∧ ti ∉ acc
    · simp only [if_pos hc, List.mem_append, List.mem_cons,
        List.not_mem_nil, or_false]
      constructor
      · rintro ((hu | rfl) | hu2)
        · exact Or.inl hu
        · exact Or.inr ⟨Or.inl rfl, hc.1⟩
        · exact Or.inr ⟨Or.inr hu2.1, hu2.2⟩
      · rintro (hu | ⟨(rfl | hu2), hcond⟩)
        · exact Or.inl (Or.inl hu)
        · exact Or.inl (Or.inr rfl)
        · exact Or.inr ⟨hu2, hcond⟩
    · simp only [if_neg hc, List.mem_cons]
      rw [Classical.not_and_iff_or_not_not, not_not] at hc
      constructor
      · rintro (hu | hu2)
        · exact Or.inl hu
        · exact Or.inr ⟨Or.inr hu2.1, hu2.2⟩
      · rintro (hu | ⟨(rfl | hu2), hcond⟩)
        · exact Or.inl hu
        · rcases hc with hnc | hacc
          · exact absurd hcond hnc
          · exact Or.inl hacc
        · exact Or.inr ⟨hu2, hcond⟩

theorem fix_text_overlap_title_need_remove_mem
    (text_blocks title_blocks : List PBlock) (u : PBlock) :
    u ∈ fix_text_overlap_title_need_remove text_blocks title_blocks ↔
      u ∈ title_blocks ∧ ∃ x ∈ text_blocks,
        8 / 10 < calculate_iou x.bbox u.bbox := by
  unfold fix_text_overlap_title_need_remove
  have key : ∀ acc : List PBlock,
      u ∈ text_blocks.foldl
        (fun acc x => title_blocks.foldl
          (fun acc2 ti =>
            if 8 / 10 < calculate_iou x.bbox ti.bbox ∧ ti ∉ acc2
            then acc2 ++ [ti] else acc2) acc)
        acc ↔
      u ∈ acc ∨ (u ∈ title_blocks ∧ ∃ x ∈ text_blocks,
        8 / 10 < calculate_iou x.bbox u.bbox) := by
    induction text_blocks with
    | nil => simp
    | cons x rest ih =>
      intro acc
      simp only [List.foldl_cons]
      rw [ih]
      rw [dedup_append_fold_mem (fun a b => 8 / 10 < calculate_iou a.bbox b.bbox)]
      simp only [List.mem_cons]
      constructor
      · rintro ((hu | ⟨ht, hc⟩) | ⟨ht, x2, hx2, hc⟩)
        · exact Or.inl hu
        · exact Or.inr ⟨ht, x, Or.inl rfl, hc⟩
        · exact Or.inr ⟨ht, x2, Or.inr hx2, hc⟩
      · rintro (hu | ⟨ht, x2, (rfl | hx2), hc⟩)
        · exact Or.inl (Or.inl hu)
        · exact Or.inl (Or.inr ⟨ht, hc⟩)
        · exact Or.inr ⟨ht, x2, hx2, hc⟩
  simpa using key []

/-- The `need_remove` list of
`fix_interline_equation_overlap_text_blocks_with_hi_iou`
(ocr_detect_all_bboxes.py lines 219-227): text blocks hit by some
interline-equation block with iou above 0.8. -/
def fix_interline_equation_need_remove
    (interline_equation_blocks text_blocks : List PBlock) : List PBlock :=
  interline_equation_blocks.foldl
    (fun acc interline_equation_block =>
      text_blocks.foldl
        (fun acc2 text_block =>
          if 8 / 10 <
              calculate_iou interline_equation_block.bbox text_block.bbox ∧
              text_block ∉ acc2
          then acc2 ++ [text_block] else acc2)
        acc)
    []

/-- Embedding of
`ocr_detect_all_bboxes.fix_interline_equation_overlap_text_blocks_with_hi_iou`. -/
def fix_interline_equation_overlap_text_blocks_with_hi_iou
    (all_bboxes : List PBlock) : List PBlock :=
  let text_blocks :=
    all_bboxes.filter (fun b => decide (b.btype = BlockType.Text))
  let interline_equation_blocks :=
    all_bboxes.filter (fun b => decide (b.btype = BlockType.InterlineEquation))
  (fix_interline_equation_need_remove interline_equation_blocks
    text_blocks).foldl remove_first all_bboxes

/-- The `need_remove` list of `remove_need_drop_blocks`
(ocr_detect_all_bboxes.py lines 275-287): blocks whose overlap ratio into
themselves against some discarded proposal exceeds 0.6 (the inner loop
breaks at the first hit, so an existential test is equivalent). -/
def remove_need_drop_blocks_need_remove (all_bboxes : List PBlock)
    (discarded_blocks : List InBlock) : List PBlock :=
  all_bboxes.foldl
    (fun acc block =>
      if (discarded_blocks.any (fun d =>
            decide (6 / 10 <
              calculate_overlap_area_in_bbox1_area_ratio block.bbox d.bbox)))
          = true ∧ block ∉ acc
      then acc ++ [block] else acc)
    []

/-- Embedding of `ocr_detect_all_bboxes.remove_need_drop_blocks`: the
collected blocks are removed from the working set (they are NOT appended
to the discarded output). -/
def remove_need_drop_blocks (all_bboxes : List PBlock)
    (discarded_blocks : List InBlock) : List PBlock :=
  (remove_need_drop_blocks_need_remove all_bboxes discarded_blocks).foldl
    remove_first all_bboxes

/-- The footnote detection loop of
`ocr_prepare_bboxes_for_layout_split_v2` (lines 139-143): discarded
proposals wider than a third of the page, taller than 10, starting in the
lower half of the page. -/
def footnote_blocks_of (discarded_blocks : List InBlock)
    (page_w page_h : ℚ) : List BBox :=
  discarded_blocks.foldl
    (fun acc d =>
      if page_w / 3 < d.bbox.x1 - d.bbox.x0 ∧ 10 < d.bbox.y1 - d.bbox.y0 ∧
          page_h / 2 < d.bbox.y0
      then acc ++ [d.bbox] else acc)
    []

/-- One step of `find_blocks_under_footnote` over the running
`(need_remove_blocks, processed_blocks)` state: skip blocks whose bbox key
was already processed; otherwise, if some footnote satisfies
`block_y0 >= footnote_y1` and vertical-projection overlap ≥ 0.8 (the
source breaks at the first such footnote), append the block and its key. -/
def fbuf_step (footnote_blocks : List BBox)
    (st : List PBlock × List BBox) (block : PBlock) :
    List PBlock × List BBox :=
  if block.bbox ∈ st.2 then st
  else if (footnote_blocks.any (fun f =>
      decide (f.y1 ≤ block.bbox.y0) &&
      decide ((8 : ℚ) / 10 ≤
        calculate_vertical_projection_overlap_ratio block.bbox f))) = true
  then (st.1 ++ [block], st.2 ++ [block.bbox])
  else st

/-- Embedding of `ocr_detect_all_bboxes.find_blocks_under_footnote`. -/
def find_blocks_under_footnote (all_bboxes : List PBlock)
    (footnote_blocks : List BBox) : List PBlock :=
  (all_bboxes.foldl (fbuf_step footnote_blocks) ([], [])).1

/-- The loop state of `remove_overlaps_min_blocks`: the working list
(whose rows mutate in place in the source), the `need_remove` list, and
the `processed_blocks` key set. -/
structure RomState where
  arr : List PBlock
  need_remove : List PBlock
  processed : List BBox
deriving Repr

/-- One inner-loop step of `remove_overlaps_min_blocks`
(ocr_detect_all_bboxes.py lines 304-334) for outer index `i` (whose key
`block1_key` was captured at the start of the outer iteration) and inner
index `j`.  `block1`/`block2` are re-read from the current list because
the source mutates rows in place; `block_to_remove` is the first row
whose bbox equals the returned overlap box; the larger row is expanded to
the union bbox in place. -/
def rom_inner_step (i : ℕ) (block1_key : BBox) (st : RomState) (j : ℕ) :
    RomState :=
  let block1 := st.arr.getD i dummy_pblock
  let block2 := st.arr.getD j dummy_pblock
  if block1 ≠ block2 then
    if block2.bbox ∈ st.processed then st
    else
      match get_minbox_if_overlap_by_ratio block1.bbox block2.bbox (8 / 10) with
      | none => st
      | some overlap_box =>
        match st.arr.find? (fun b => decide (b.bbox = overlap_box)) with
        | none => st
        | some block_to_remove =>
          if block_to_remove ∈ st.need_remove then st
          else
            let large_idx := if block1 ≠ block_to_remove then i else j
            let large_block := st.arr.getD large_idx dummy_pblock
            let union_bbox := BBox.mk
              (min large_block.bbox.x0 block_to_remove.bbox.x0)
              (min large_block.bbox.y0 block_to_remove.bbox.y0)
              (max large_block.bbox.x1 block_to_remove.bbox.x1)
              (max large_block.bbox.y1 block_to_remove.bbox.y1)
            let merged := { large_block with bbox := union_bbox }
            { arr := st.arr.set large_idx merged,
              need_remove := st.need_remove ++ [block_to_remove],
              processed := st.processed ++ [block_to_remove.bbox, block1_key] }
  else st

/-- One outer-loop step of `remove_overlaps_min_blocks` for index `i`:
capture `block1_key` from the current row, skip processed keys, else run
the inner loop over every index. -/
def rom_outer_step (n : ℕ) (st : RomState) (i : ℕ) : RomState :=
  let block1_key := (st.arr.getD i dummy_pblock).bbox
  if block1_key ∈ st.processed then st
  else (List.range n).foldl (rom_inner_step i block1_key) st

/-- Embedding of `ocr_detect_all_bboxes.remove_overlaps_min_blocks`: run
the double loop (both over the list's positions; the list object's length
never changes during the loops), then `list.remove` every collected row
(the source guards with `if block in all_bboxes`, and removing an absent
value is a no-op here). -/
def remove_overlaps_min_blocks (all_bboxes : List PBlock) : List PBlock :=
  let n := all_bboxes.length
  let st := (List.range n).foldl (rom_outer_step n)
    { arr := all_bboxes, need_remove := [], processed := [] }
  st.need_remove.foldl remove_first st.arr

/-- The final sort key of `ocr_prepare_bboxes_for_layout_split_v2`
(line 157): `x0 + y0`. -/
def prepare_sort_key (b : PBlock) : ℚ := b.bbox.x0 + b.bbox.y0

/-- Stable insertion of a row in front of the first row with a key not
smaller than its own. -/
def insert_by_key : PBlock → List PBlock → List PBlock
  | b, [] => [b]
  | b, h :: t =>
    if prepare_sort_key b ≤ prepare_sort_key h then b :: h :: t
    else h :: insert_by_key b t

/-- Python's `list.sort(key=...)` is stable; a stable sort's output is
uniquely determined by the key order together with the original order, so
this stable insertion sort is a faithful model. -/
def stable_sort_by_key (l : List PBlock) : List PBlock :=
  l.foldr insert_by_key []

/-- Embedding of
`ocr_detect_all_bboxes.ocr_prepare_bboxes_for_layout_split_v2` (Block
Synthesis): flatten the typed inputs, run the conflict passes in source
order, detect footnotes and move shadowed blocks to the discarded set,
collapse contained boxes on both sets, and sort the kept set by
`x0 + y0`. -/
def ocr_prepare_bboxes_for_layout_split_v2
    (img_body_blocks img_caption_blocks img_footnote_blocks
      table_body_blocks table_caption_blocks table_footnote_blocks
      discarded_blocks text_blocks title_blocks
      interline_equation_blocks : List InBlock)
    (page_w page_h : ℚ) : List PBlock × List PBlock :=
  let a0 := add_bboxes img_body_blocks BlockType.ImageBody []
  let a1 := add_bboxes img_caption_blocks BlockType.ImageCaption a0
  let a2 := add_bboxes img_footnote_blocks BlockType.ImageFootnote a1
  let a3 := add_bboxes table_body_blocks BlockType.TableBody a2
  let a4 := add_bboxes table_caption_blocks BlockType.TableCaption a3
  let a5 := add_bboxes table_footnote_blocks BlockType.TableFootnote a4
  let a6 := add_bboxes text_blocks BlockType.Text a5
  let a7 := add_bboxes title_blocks BlockType.Title a6
  let a8 := add_bboxes interline_equation_blocks BlockType.InterlineEquation a7
  let a9 := fix_text_overlap_title_blocks a8
  let a10 := remove_need_drop_blocks a9 discarded_blocks
  let a11 := fix_interline_equation_overlap_text_blocks_with_hi_iou a10
  let all_discarded := add_bboxes discarded_blocks BlockType.Discarded []
  let footnote_blocks := footnote_blocks_of discarded_blocks page_w page_h
  let need_remove_blocks := find_blocks_under_footnote a11 footnote_blocks
  let a12 := need_remove_blocks.foldl remove_first a11
  let all_discarded2 := all_discarded ++ need_remove_blocks
  let a13 := remove_overlaps_min_blocks a12
  let all_discarded3 := remove_overlaps_min_blocks all_discarded2
  (stable_sort_by_key a13, all_discarded3)

/-- C4: text-over-title preference.  In `fix_text_overlap_title_blocks`
(run on any duplicate-free working list): every Title block having some
Text block with iou above 0.8 is dropped, and every non-Title block (in
particular every Text block) is kept; and for the claim's concrete
scenario - `A = [0,0,100,50]` Text with confidence 0.9 and
`B = [0,0,100,50]` Title with confidence 0.7 (iou = 1) - the whole Block
Synthesis pipeline keeps exactly `A` and drops `B`. -/
theorem C4_text_over_title (l : List PBlock) (hN : l.Nodup) :
    (∀ t ∈ l, t.btype = BlockType.Title →
      (∃ x ∈ l, x.btype = BlockType.Text ∧
        8 / 10 < calculate_iou x.bbox t.bbox) →
      t ∉ fix_text_overlap_title_blocks l) ∧
    (∀ b ∈ l, b.btype ≠ BlockType.Title →
      b ∈ fix_text_overlap_title_blocks l) ∧
    ocr_prepare_bboxes_for_layout_split_v2 [] [] [] [] [] [] []
        [InBlock.mk (BBox.mk 0 0 100 50) (9 / 10) none]
        [InBlock.mk (BBox.mk 0 0 100 50) (7 / 10) none] [] 600 800 =
      ([PBlock.mk (BBox.mk 0 0 100 50) BlockType.Text (9 / 10) none], []) := by
  have hout : fix_text_overlap_title_blocks l =
      (fix_text_overlap_title_need_remove
        (l.filter (fun b => decide (b.btype = BlockType.Text)))
        (l.filter (fun b => decide (b.btype = BlockType.Title)))).foldl
        remove_first l := rfl
  refine ⟨?_, ?_, by with_unfolding_all decide⟩
  · rintro t htl htitle ⟨x, hx, hxt, hiou⟩
    rw [hout]
    intro hmem
    have h2 := (foldl_remove_first_mem _ hN t).mp hmem
    apply h2.2
    rw [fix_text_overlap_title_need_remove_mem]
    refine ⟨List.mem_filter.mpr ⟨htl, by simp [htitle]⟩, x,
      List.mem_filter.mpr ⟨hx, by simp [hxt]⟩, hiou⟩
  · intro b hb hbt
    rw [hout]
    rw [foldl_remove_first_mem _ hN]
    refine ⟨hb, fun hmem => ?_⟩
    have h3 := (fix_text_overlap_title_need_remove_mem _ _ b).mp hmem
    have h4 := List.mem_filter.mp h3.1
    exact hbt (by simpa using h4.2)

/-- Witness for C4: dropping the coincident Title and keeping the Text in
a concrete two-row working list. -/
theorem C4_text_over_title_witness :
    PBlock.mk (BBox.mk 0 0 100 50) BlockType.Title (7 / 10) none ∉
      fix_text_overlap_title_blocks
        [PBlock.mk (BBox.mk 0 0 100 50) BlockType.Text (9 / 10) none,
         PBlock.mk (BBox.mk 0 0 100 50) BlockType.Title (7 / 10) none] ∧
    PBlock.mk (BBox.mk 0 0 100 50) BlockType.Text (9 / 10) none ∈
      fix_text_overlap_title_blocks
        [PBlock.mk (BBox.mk 0 0 100 50) BlockType.Text (9 / 10) none,
         PBlock.mk (BBox.mk 0 0 100 50) BlockType.Title (7 / 10) none] := by
  have h := C4_text_over_title
    [PBlock.mk (BBox.mk 0 0 100 50) BlockType.Text (9 / 10) none,
     PBlock.mk (BBox.mk 0 0 100 50) BlockType.Title (7 / 10) none]
    (by simp)
  refine ⟨h.1 _ (by simp) rfl ?_, h.2.1 _ (by simp) (by simp)⟩
  refine ⟨PBlock.mk (BBox.mk 0 0 100 50) BlockType.Text (9 / 10) none,
    by simp, rfl, ?_⟩
  norm_num [calculate_iou]

/-- The per-block test of `find_blocks_under_footnote`: some footnote has
`block_y0 >= footnote_y1` and vertical-projection overlap (relative to the
block's width) at least 0.8. -/
def under_footnote (footnote_blocks : List BBox) (b : PBlock) : Bool :=
  footnote_blocks.any (fun f =>
    decide (f.y1 ≤ b.bbox.y0) &&
    decide ((8 : ℚ) / 10 ≤
      calculate_vertical_projection_overlap_ratio b.bbox f))

theorem fbuf_step_eq (fns : List BBox) (st : List PBlock × List BBox)
    (b : PBlock) :
    fbuf_step fns st b =
      if b.bbox ∈ st.2 then st
      else if under_footnote fns b = true
      then (st.1 ++ [b], st.2 ++ [b.bbox]) else st := rfl

theorem fbuf_fold_eq (fns : List BBox) (l : List PBlock)
    (acc : List PBlock) (keys : List BBox)
    (hkeys : ∀ b ∈ l, b.bbox ∉ keys)
    (hP : l.Pairwise (fun a b => a.bbox ≠ b.bbox)) :
    l.foldl (fbuf_step fns) (acc, keys) =
      (acc ++ l.filter (under_footnote fns),
       keys ++ (l.filter (under_footnote fns)).map (fun b => b.bbox)) := by
  induction l generalizing acc keys with
  | nil => simp
  | cons b t ih =>
    rcases List.pairwise_cons.mp hP with ⟨hbt, hPt⟩
    have hbk : b.bbox ∉ keys := hkeys b (List.mem_cons_self _ _)
    simp only [List.foldl_cons, fbuf_step_eq, if_neg hbk]
    by_cases hc : under_footnote fns b = true
    · simp only [if_pos hc]
      rw [ih (acc ++ [b]) (keys ++ [b.bbox]) ?_ hPt]
      · rw [List.filter_cons_of_pos hc]
        simp [List.append_assoc]
      · intro c hcl
        simp only [List.mem_append, List.mem_singleton]
        rintro (hck | hcb)
        · exact hkeys c (List.mem_cons_of_mem _ hcl) hck
        · exact (hbt c hcl) hcb.symm
    · simp only [if_neg hc]
      rw [ih acc keys (fun c hcl => hkeys c (List.mem_cons_of_mem _ hcl)) hPt]
      rw [List.filter_cons_of_neg (by simpa using hc)]

theorem find_blocks_under_footnote_eq (l : List PBlock) (fns : List BBox)
    (hP : l.Pairwise (fun a b => a.bbox ≠ b.bbox)) :
    find_blocks_under_footnote l fns = l.filter (under_footnote fns) := by
  unfold find_blocks_under_footnote
  rw [fbuf_fold_eq fns l [] [] (by simp) hP]
  simp

theorem footnote_blocks_of_mem (discarded_blocks : List InBlock)
    (page_w page_h : ℚ) (f : BBox) :
    f ∈ footnote_blocks_of discarded_blocks page_w page_h ↔
      ∃ d ∈ discarded_blocks, d.bbox = f ∧
        page_w / 3 < f.x1 - f.x0 ∧ 10 < f.y1 - f.y0 ∧
        page_h / 2 < f.y0 := by
  unfold footnote_blocks_of
  have key : ∀ acc : List BBox,
      f ∈ discarded_blocks.foldl
        (fun acc d =>
          if page_w / 3 < d.bbox.x1 - d.bbox.x0 ∧
              10 < d.bbox.y1 - d.bbox.y0 ∧ page_h / 2 < d.bbox.y0
          then acc ++ [d.bbox] else acc)
        acc ↔
      f ∈ acc ∨ ∃ d ∈ discarded_blocks, d.bbox = f ∧
        page_w / 3 < f.x1 - f.x0 ∧ 10 < f.y1 - f.y0 ∧
        page_h / 2 < f.y0 := by
    induction discarded_blocks with
    | nil => simp
    | cons d t ih =>
      intro acc
      simp only [List.foldl_cons]
      rw [ih]
      by_cases hc : page_w / 3 < d.bbox.x1 - d.bbox.x0 ∧
          10 < d.bbox.y1 - d.bbox.y0 ∧ page_h / 2 < d.bbox.y0
      · simp only [if_pos hc, List.mem_append, List.mem_cons,
          List.not_mem_nil, or_false]
        constructor
        · rintro ((hf | rfl) | ⟨d2, hd2, rfl, hrest⟩)
          · exact Or.inl hf
          · exact Or.inr ⟨d, Or.inl rfl, rfl, hc⟩
          · exact Or.inr ⟨d2, Or.inr hd2, rfl, hrest⟩
        · rintro (hf | ⟨d2, (rfl | hd2), rfl, hrest⟩)
          · exact Or.inl (Or.inl hf)
          · exact Or.inl (Or.inr rfl)
          · exact Or.inr ⟨d2, hd2, rfl, hrest⟩
      · simp only [if_neg hc, List.mem_cons]
        constructor
        · rintro (hf | ⟨d2, hd2, rfl, hrest⟩)
          · exact Or.inl hf
          · exact Or.inr ⟨d2, Or.inr hd2, rfl, hrest⟩
        · rintro (hf | ⟨d2, (rfl | hd2), rfl, hrest⟩)
          · exact Or.inl hf
          · exact absurd hrest hc
          · exact Or.inr ⟨d2, hd2, rfl, hrest⟩
  simpa using key []

/-- C5: footnote shadow removal.  Every Discarded proposal with width above
a third of the page, height above 10 and top edge in the lower half of the
page is collected as a footnote; a block is collected by
`find_blocks_under_footnote` exactly when some footnote satisfies
`block_y0 ≥ footnote_y1` with vertical-projection overlap (relative to the
block width) at least 0.8, and every such block is removed from the kept
working list and appended to the discarded list; and the claim's concrete
scenario - discarded footnote `[0,700,600,720]`, text block
`[0,730,600,760]`, page 600x800 - ends with the text block in the
discarded output and an empty kept output. -/
theorem C5_footnote_shadow (l : List PBlock)
    (discarded_blocks : List InBlock) (dl : List PBlock)
    (page_w page_h : ℚ) (hN : l.Nodup)
    (hP : l.Pairwise (fun a b => a.bbox ≠ b.bbox)) :
    (∀ f : BBox, f ∈ footnote_blocks_of discarded_blocks page_w page_h ↔
      ∃ d ∈ discarded_blocks, d.bbox = f ∧
        page_w / 3 < f.x1 - f.x0 ∧ 10 < f.y1 - f.y0 ∧
        page_h / 2 < f.y0) ∧
    (∀ fns : List BBox, ∀ b : PBlock, under_footnote fns b = true ↔
      ∃ f ∈ fns, f.y1 ≤ b.bbox.y0 ∧
        8 / 10 ≤ calculate_vertical_projection_overlap_ratio b.bbox f) ∧
    (∀ b, b ∈ find_blocks_under_footnote l
        (footnote_blocks_of discarded_blocks page_w page_h) ↔
      b ∈ l ∧ under_footnote
        (footnote_blocks_of discarded_blocks page_w page_h) b = true) ∧
    (∀ b ∈ l, under_footnote
        (footnote_blocks_of discarded_blocks page_w page_h) b = true →
      b ∉ (find_blocks_under_footnote l
        (footnote_blocks_of discarded_blocks page_w page_h)).foldl
          remove_first l ∧
      b ∈ dl ++ find_blocks_under_footnote l
        (footnote_blocks_of discarded_blocks page_w page_h)) ∧
    ocr_prepare_bboxes_for_layout_split_v2 [] [] [] [] [] []
        [InBlock.mk (BBox.mk 0 700 600 720) 1 none]
        [InBlock.mk (BBox.mk 0 730 600 760) 1 none] [] [] 600 800 =
      ([], [PBlock.mk (BBox.mk 0 700 600 720) BlockType.Discarded 1 none,
            PBlock.mk (BBox.mk 0 730 600 760) BlockType.Text 1 none]) := by
  refine ⟨footnote_blocks_of_mem discarded_blocks page_w page_h, ?_, ?_, ?_,
    by with_unfolding_all decide⟩
  · intro fns b
    unfold under_footnote
    simp [List.any_eq_true]
  · intro b
    rw [find_blocks_under_footnote_eq l _ hP]
    simp [List.mem_filter]
  · intro b hb hcond
    constructor
    · rw [find_blocks_under_footnote_eq l _ hP,
        foldl_remove_first_mem _ hN]
      rintro ⟨hbl, hnot⟩
      exact hnot (List.mem_filter.mpr ⟨hb, hcond⟩)
    · rw [find_blocks_under_footnote_eq l _ hP]
      exact List.mem_append.mpr (Or.inr (List.mem_filter.mpr ⟨hb, hcond⟩))

/-- Witness for C5 at the claim's concrete footnote and text block. -/
theorem C5_footnote_shadow_witness :
    PBlock.mk (BBox.mk 0 730 600 760) BlockType.Text 1 none ∈
      [] ++ find_blocks_under_footnote
        [PBlock.mk (BBox.mk 0 730 600 760) BlockType.Text 1 none]
        (footnote_blocks_of [InBlock.mk (BBox.mk 0 700 600 720) 1 none]
          600 800) ∧
    PBlock.mk (BBox.mk 0 730 600 760) BlockType.Text 1 none ∉
      (find_blocks_under_footnote
        [PBlock.mk (BBox.mk 0 730 600 760) BlockType.Text 1 none]
        (footnote_blocks_of [InBlock.mk (BBox.mk 0 700 600 720) 1 none]
          600 800)).foldl remove_first
        [PBlock.mk (BBox.mk 0 730 600 760) BlockType.Text 1 none] := by
  have h := C5_footnote_shadow
    [PBlock.mk (BBox.mk 0 730 600 760) BlockType.Text 1 none]
    [InBlock.mk (BBox.mk 0 700 600 720) 1 none] [] 600 800
    (by simp) (by simp)
  have hcond : under_footnote
      (footnote_blocks_of [InBlock.mk (BBox.mk 0 700 600 720) 1 none]
        600 800)
      (PBlock.mk (BBox.mk 0 730 600 760) BlockType.Text 1 none) = true := by
    with_unfolding_all decide
  have h4 := h.2.2.2.1 _ (by simp) hcond
  exact ⟨h4.2, h4.1⟩

/-- Re-feeding Block Synthesis its own output, as the idempotence claim
requires: every kept row returns to the typed input list of its category
and every discarded-output row returns to the discarded input list, each
reduced back to an input dict (bbox, score, group id). -/
def refeed_prepare (out : List PBlock × List PBlock) (page_w page_h : ℚ) :
    List PBlock × List PBlock :=
  ocr_prepare_bboxes_for_layout_split_v2
    (((out.1.filter (fun b => decide (b.btype = BlockType.ImageBody))).map
      (fun b => InBlock.mk b.bbox b.score b.group_id)))
    (((out.1.filter (fun b => decide (b.btype = BlockType.ImageCaption))).map
      (fun b => InBlock.mk b.bbox b.score b.group_id)))
    (((out.1.filter (fun b => decide (b.btype = BlockType.ImageFootnote))).map
      (fun b => InBlock.mk b.bbox b.score b.group_id)))
    (((out.1.filter (fun b => decide (b.btype = BlockType.TableBody))).map
      (fun b => InBlock.mk b.bbox b.score b.group_id)))
    (((out.1.filter (fun b => decide (b.btype = BlockType.TableCaption))).map
      (fun b => InBlock.mk b.bbox b.score b.group_id)))
    (((out.1.filter (fun b => decide (b.btype = BlockType.TableFootnote))).map
      (fun b => InBlock.mk b.bbox b.score b.group_id)))
    ((out.2.map (fun b => InBlock.mk b.bbox b.score b.group_id)))
    (((out.1.filter (fun b => decide (b.btype = BlockType.Text))).map
      (fun b => InBlock.mk b.bbox b.score b.group_id)))
    (((out.1.filter (fun b => decide (b.btype = BlockType.Title))).map
      (fun b => InBlock.mk b.bbox b.score b.group_id)))
    (((out.1.filter (fun b =>
        decide (b.btype = BlockType.InterlineEquation))).map
      (fun b => InBlock.mk b.bbox b.score b.group_id)))
    page_w page_h

/-- Counterexample to C2: Block Synthesis is not idempotent.  On the three
Text proposals `[100,0,104,50]`, `[0,0,100,100]`, `[65,65,104,104]`
(600x800 page) the first run merges the third box into the second
(overlap ratio to the smaller box 1225/1521 > 0.8) and keeps the first
box; the resulting pair overlaps with ratio 1 > 0.8 but is left
uncollapsed because the single sweep of `remove_overlaps_min_blocks` had
already passed the first box's position when the merge happened; the
second run then merges that pair, so the two runs differ. -/
theorem C2_counterexample :
    refeed_prepare
        (ocr_prepare_bboxes_for_layout_split_v2 [] [] [] [] [] [] []
          [InBlock.mk (BBox.mk 100 0 104 50) 1 none,
           InBlock.mk (BBox.mk 0 0 100 100) 1 none,
           InBlock.mk (BBox.mk 65 65 104 104) 1 none] [] [] 600 800)
        600 800 ≠
      ocr_prepare_bboxes_for_layout_split_v2 [] [] [] [] [] [] []
        [InBlock.mk (BBox.mk 100 0 104 50) 1 none,
         InBlock.mk (BBox.mk 0 0 100 100) 1 none,
         InBlock.mk (BBox.mk 65 65 104 104) 1 none] [] [] 600 800 := by
  with_unfolding_all decide

/-- C2 (amended): Block Synthesis is not idempotent in general.  Its
containment-collapse pass is a single sweep whose in-place union merge can
leave a pair with overlap ratio (to the smaller box) above 0.8 in the
output, and the second run collapses that pair: on the three-Text-block
input below, the first run keeps two blocks whose overlap ratio is 1,
and re-running the pipeline on that output merges them into one. -/
theorem C2_second_run_merges_further :
    (ocr_prepare_bboxes_for_layout_split_v2 [] [] [] [] [] [] []
        [InBlock.mk (BBox.mk 100 0 104 50) 1 none,
         InBlock.mk (BBox.mk 0 0 100 100) 1 none,
         InBlock.mk (BBox.mk 65 65 104 104) 1 none] [] [] 600 800).1 =
      [PBlock.mk (BBox.mk 0 0 104 104) BlockType.Text 1 none,
       PBlock.mk (BBox.mk 100 0 104 50) BlockType.Text 1 none] ∧
    8 / 10 < calculate_overlap_area_2_minbox_area_ratio
      (BBox.mk 0 0 104 104) (BBox.mk 100 0 104 50) ∧
    (refeed_prepare
        (ocr_prepare_bboxes_for_layout_split_v2 [] [] [] [] [] [] []
          [InBlock.mk (BBox.mk 100 0 104 50) 1 none,
           InBlock.mk (BBox.mk 0 0 100 100) 1 none,
           InBlock.mk (BBox.mk 65 65 104 104) 1 none] [] [] 600 800)
        600 800).1 =
      [PBlock.mk (BBox.mk 0 0 104 104) BlockType.Text 1 none] := by
  with_unfolding_all decide

/-- A block at the point of `sort_lines_by_model`: category, bbox, and the
bboxes of its current lines (only the line bboxes feed the reading-order
collection). -/
structure FixBlock where
  btype : BlockType
  bbox : BBox
  lines : List BBox
deriving DecidableEq, Repr

/-- Embedding of `pdf_parse_union_core_v2.insert_lines_into_block`:
virtual-line synthesis from the block's size relative to the page and the
median line height (Python `int()` on the positive ratio is a floor). -/
def insert_lines_into_block (block_bbox : BBox)
    (line_height page_w page_h : ℚ) : List BBox :=
  let x0 := block_bbox.x0
  let y0 := block_bbox.y0
  let x1 := block_bbox.x1
  let y1 := block_bbox.y1
  let block_height := y1 - y0
  let block_width := x1 - x0
  if block_height ≤ line_height * 2 then [BBox.mk x0 y0 x1 y1]
  else if block_height > page_h * (25 / 100) ∧
      page_w * (50 / 100) > block_width ∧
      block_width > page_w * (25 / 100) then
    (List.range ((⌊block_height / line_height⌋).toNat + 1)).map (fun i =>
      BBox.mk x0 (y0 + i * line_height) x1 (y0 + i * line_height + line_height))
  else if block_width > page_w * (40 / 100) then
    (List.range 3).map (fun i =>
      BBox.mk x0 (y0 + i * (block_height / 3)) x1
        (y0 + i * (block_height / 3) + block_height / 3))
  else if block_width > page_w * (25 / 100) then
    (List.range ((⌊block_height / line_height⌋).toNat + 1)).map (fun i =>
      BBox.mk x0 (y0 + i * line_height) x1 (y0 + i * line_height + line_height))
  else if block_height / block_width > 12 / 10 then [BBox.mk x0 y0 x1 y1]
  else
    (List.range 2).map (fun i =>
      BBox.mk x0 (y0 + i * (block_height / 2)) x1
        (y0 + i * (block_height / 2) + block_height / 2))

/-- The line bboxes one block contributes to `page_line_list` in
`sort_lines_by_model` (lines 668-685): text-like blocks contribute their
real lines, except empty blocks and tall single-line titles which get
virtual lines; image/table bodies and interline equations always get
virtual lines; other categories contribute nothing. -/
def block_page_lines (page_w page_h line_height : ℚ) (block : FixBlock) :
    List BBox :=
  if block.btype = BlockType.Text ∨ block.btype = BlockType.Title ∨
      block.btype = BlockType.ImageCaption ∨
      block.btype = BlockType.ImageFootnote ∨
      block.btype = BlockType.TableCaption ∨
      block.btype = BlockType.TableFootnote then
    if block.lines.length = 0 then
      insert_lines_into_block block.bbox line_height page_w page_h
    else if block.btype = BlockType.Title ∧ block.lines.length = 1 ∧
        block.bbox.y1 - block.bbox.y0 > line_height * 2 then
      insert_lines_into_block block.bbox line_height page_w page_h
    else block.lines
  else if block.btype = BlockType.ImageBody ∨
      block.btype = BlockType.TableBody ∨
      block.btype = BlockType.InterlineEquation then
    insert_lines_into_block block.bbox line_height page_w page_h
  else []

/-- The complete `page_line_list` collected by `sort_lines_by_model`:
every real and virtual line bbox across the page. -/
def page_line_list (fix_blocks : List FixBlock)
    (page_w page_h line_height : ℚ) : List BBox :=
  (fix_blocks.map (block_page_lines page_w page_h line_height)).flatten

/-- Python's built-in `round`: round half to even. -/
def pyRound (q : ℚ) : ℤ :=
  let f := ⌊q⌋
  let r := q - (f : ℚ)
  if r < 1 / 2 then f
  else if 1 / 2 < r then f + 1
  else if f % 2 = 0 then f else f + 1

/-- Embedding of `pdf_parse_union_core_v2.sort_lines_by_model`.  The
sequence-labeling collaborator (`do_predict` on the layoutreader model) is
passed in as `predict`; it is consulted only on the `some` path.  The
source gate is `if len(page_line_list) > 200: return None` (comment:
"layoutreader最高支持512line"); `None` tells `cal_block_index` to fall
back to xy-cut.  On the model path the coordinates are clamped to the
page, scaled to the 1000x1000 grid with banker's rounding (the in-range
assert always holds after clamping) and the returned permutation is read
back through the line list. -/
def sort_lines_by_model (predict : List (List ℤ) → List ℕ)
    (fix_blocks : List FixBlock) (page_w page_h line_height : ℚ) :
    Option (List BBox) :=
  let pll := page_line_list fix_blocks page_w page_h line_height
  if 200 < pll.length then none
  else
    let x_scale := 1000 / page_w
    let y_scale := 1000 / page_h
    let boxes := pll.map (fun l =>
      let left := if l.x0 < 0 then 0 else l.x0
      let right := if page_w < l.x1 then page_w else l.x1
      let top := if l.y0 < 0 then 0 else l.y0
      let bottom := if page_h < l.y1 then page_h else l.y1
      [pyRound (left * x_scale), pyRound (top * y_scale),
       pyRound (right * x_scale), pyRound (bottom * y_scale)])
    let orders := predict boxes
    some (orders.map (fun i => pll.getD i (BBox.mk 0 0 0 0)))

/-- The two reading-order strategies of `cal_block_index`. -/
inductive OrderStrategy where
  | layoutreader
  | xycut
deriving DecidableEq, Repr

/-- The strategy dispatch at the head of `cal_block_index`
(pdf_parse_union_core_v2.py line 544): the layoutreader ordering is used
when `sorted_bboxes is not None`, otherwise the recursive xy-cut. -/
def cal_block_index_strategy : Option (List BBox) → OrderStrategy
  | some _ => OrderStrategy.layoutreader
  | none => OrderStrategy.xycut

/-- C1: reading-order capacity fallback.  `sort_lines_by_model` collects
every real and virtual line bbox of the page into `page_line_list`;
whenever that count exceeds the collaborator's capacity (in particular
whenever it exceeds 512 - the source aborts already above 200), the
function returns `None` for every possible collaborator, so the
capacity-bounded collaborator is never invoked and `cal_block_index`
uses the xy-cut fallback. -/
theorem C1_capacity_fallback (predict : List (List ℤ) → List ℕ)
    (fix_blocks : List FixBlock) (page_w page_h line_height : ℚ)
    (hcap : 512 < (page_line_list fix_blocks page_w page_h
      line_height).length) :
    sort_lines_by_model predict fix_blocks page_w page_h line_height =
      none ∧
    cal_block_index_strategy
      (sort_lines_by_model predict fix_blocks page_w page_h line_height) =
      OrderStrategy.xycut := by
  have hgate : 200 <
      (page_line_list fix_blocks page_w page_h line_height).length := by
    omega
  have hnone : sort_lines_by_model predict fix_blocks page_w page_h
      line_height = none := by
    unfold sort_lines_by_model
    simp only [if_pos hgate]
  exact ⟨hnone, by rw [hnone]; rfl⟩

/-- Witness for C1: a page with 600 synthesized line boxes (600 empty Text
blocks, each yielding one virtual line) makes the strategy abort and fall
back, for an arbitrary collaborator. -/
theorem C1_capacity_fallback_witness :
    512 < (page_line_list
      (List.replicate 600 (FixBlock.mk BlockType.Text (BBox.mk 0 0 10 10) []))
      1000 1000 10).length ∧
    sort_lines_by_model (fun _ => [])
      (List.replicate 600 (FixBlock.mk BlockType.Text (BBox.mk 0 0 10 10) []))
      1000 1000 10 = none ∧
    cal_block_index_strategy
      (sort_lines_by_model (fun _ => [])
        (List.replicate 600
          (FixBlock.mk BlockType.Text (BBox.mk 0 0 10 10) []))
        1000 1000 10) = OrderStrategy.xycut := by
  have hcap : 512 < (page_line_list
      (List.replicate 600 (FixBlock.mk BlockType.Text (BBox.mk 0 0 10 10) []))
      1000 1000 10).length := by
    with_unfolding_all decide
  have h := C1_capacity_fallback (fun _ => [])
    (List.replicate 600 (FixBlock.mk BlockType.Text (BBox.mk 0 0 10 10) []))
    1000 1000 10 hcap
  exact ⟨hcap, h.1, h.2⟩

/-- A block at the point of `revert_group_blocks`: category, bbox,
reading-order `index`, and the `group_id` carried by image/table
fragments (absent on other categories, which never read it). -/
structure GBlock where
  btype : BlockType
  bbox : BBox
  group_id : Option ℕ
  index : ℚ
deriving DecidableEq, Repr

/-- Image fragment categories grouped by `revert_group_blocks`. -/
def is_image_fragment : BlockType → Bool
  | BlockType.ImageBody | BlockType.ImageCaption
  | BlockType.ImageFootnote => true
  | _ => false

/-- Table fragment categories grouped by `revert_group_blocks`. -/
def is_table_fragment : BlockType → Bool
  | BlockType.TableBody | BlockType.TableCaption
  | BlockType.TableFootnote => true
  | _ => false

/-- Appending a block to its group in an insertion-ordered association
list, as a Python dict of lists does (`image_groups[group_id] = []` on
first sight, then `.append(block)`). -/
def add_to_groups (gs : List (Option ℕ × List GBlock)) (g : Option ℕ)
    (b : GBlock) : List (Option ℕ × List GBlock) :=
  match gs with
  | [] => [(g, [b])]
  | (k, l) :: t =>
    if k = g then (k, l ++ [b]) :: t else (k, l) :: add_to_groups t g b

/-- The image-group dict built by the loop of `revert_group_blocks`
(the loop dispatches every block to exactly one of the image dict, the
table dict, or the passthrough list, so per-collection folds are exact). -/
def image_groups_of (blocks : List GBlock) :
    List (Option ℕ × List GBlock) :=
  blocks.foldl
    (fun gs b =>
      if is_image_fragment b.btype then add_to_groups gs b.group_id b
      else gs)
    []

/-- The table-group dict built by the loop of `revert_group_blocks`. -/
def table_groups_of (blocks : List GBlock) :
    List (Option ℕ × List GBlock) :=
  blocks.foldl
    (fun gs b =>
      if is_table_fragment b.btype then add_to_groups gs b.group_id b
      else gs)
    []

/-- Stable insertion by numeric value, for the sorted order of
`statistics.median`. -/
def insert_sorted_q (q : ℚ) : List ℚ → List ℚ
  | [] => [q]
  | h :: t => if q ≤ h then q :: h :: t else h :: insert_sorted_q q t

/-- Numeric sort used by `statistics.median`. -/
def sort_q (l : List ℚ) : List ℚ := l.foldr insert_sorted_q []

/-- Python `statistics.median`: middle element of the sorted list for odd
length, mean of the two middle elements for even length (it raises on an
empty list; the sources call it only on nonempty lists). -/
def statistics_median (l : List ℚ) : ℚ :=
  let s := sort_q l
  let n := s.length
  if n % 2 = 1 then s.getD (n / 2) 0
  else (s.getD (n / 2 - 1) 0 + s.getD (n / 2) 0) / 2

/-- A composite block dict produced by `process_block_list`
(`{'type', 'bbox', 'blocks', 'index'}`); `bbox` is `none` when the group
has no body fragment (Python uses `[]` as the default there). -/
structure CompositeBlock where
  btype : BlockType
  bbox : Option BBox
  blocks : List GBlock
  index : ℚ
deriving DecidableEq, Repr

/-- Embedding of `pdf_parse_union_core_v2.process_block_list`: composite
bbox is the first body member's bbox, composite index is the median of
the members' indices, children are the members as collected. -/
def process_block_list (blocks : List GBlock)
    (body_type block_type : BlockType) : CompositeBlock :=
  { btype := block_type,
    bbox := (blocks.find? (fun b => decide (b.btype = body_type))).map
      (fun b => b.bbox),
    blocks := blocks,
    index := statistics_median (blocks.map (fun b => b.index)) }

/-- An output entry of `revert_group_blocks`: either a passthrough block
or a composite. -/
inductive RBlock where
  | plain (b : GBlock)
  | comp (c : CompositeBlock)
deriving DecidableEq, Repr

/-- Embedding of `pdf_parse_union_core_v2.revert_group_blocks`:
passthrough blocks in order, then one composite per image group in
first-occurrence order, then one per table group. -/
def revert_group_blocks (blocks : List GBlock) : List RBlock :=
  (blocks.filter (fun b =>
      !(is_image_fragment b.btype) && !(is_table_fragment b.btype))).map
    RBlock.plain ++
  (image_groups_of blocks).map (fun e =>
    RBlock.comp (process_block_list e.2 BlockType.ImageBody
      BlockType.Image)) ++
  (table_groups_of blocks).map (fun e =>
    RBlock.comp (process_block_list e.2 BlockType.TableBody
      BlockType.Table))

/-- Stable insertion by `index`, for step 9.5 of `parse_page_core`. -/
def insert_by_index (b : GBlock) : List GBlock → List GBlock
  | [] => [b]
  | h :: t => if b.index ≤ h.index then b :: h :: t else h :: insert_by_index b t

/-- Stable sort by `index` for step 9.5 of `parse_page_core`
(`sorted(block['blocks'], key=lambda b: b['index'])`; Python's stable
sort output is uniquely determined by keys plus original order). -/
def sort_blocks_by_index (l : List GBlock) : List GBlock :=
  l.foldr insert_by_index []

/-- Step 9.5 of `parse_page_core`: sort each Image/Table composite's
children by their own index. -/
def sort_composite_children : RBlock → RBlock
  | RBlock.plain b => RBlock.plain b
  | RBlock.comp c =>
    if c.btype = BlockType.Image ∨ c.btype = BlockType.Table then
      RBlock.comp { c with blocks := sort_blocks_by_index c.blocks }
    else RBlock.comp c

/-- Flattening a reverted block list back to per-fragment blocks: each
composite contributes its children, each passthrough block itself (the
round-trip direction of the claim). -/
def flatten_group_blocks (l : List RBlock) : List GBlock :=
  (l.map (fun r =>
    match r with
    | RBlock.plain b => [b]
    | RBlock.comp c => c.blocks)).flatten

/-- Entry lookup in a group association list. -/
def group_entry (gs : List (Option ℕ × List GBlock)) (g : Option ℕ) :
    List GBlock :=
  match gs.find? (fun e => decide (e.1 = g)) with
  | some e => e.2
  | none => []

theorem group_entry_add_same (gs : List (Option ℕ × List GBlock))
    (g : Option ℕ) (b : GBlock) :
    group_entry (add_to_groups gs g b) g = group_entry gs g ++ [b] := by
  induction gs with
  | nil => simp [add_to_groups, group_entry, List.find?]
  | cons e t ih =>
    obtain ⟨k, l⟩ := e
    unfold add_to_groups
    by_cases hk : k = g
    · subst hk
      simp [group_entry, List.find?]
    · have hd : (decide (k = g)) = false := by simpa using hk
      simp only [if_neg hk]
      unfold group_entry
      simp only [List.find?, hd]
      exact ih

theorem group_entry_add_other (gs : List (Option ℕ × List GBlock))
    (g g2 : Option ℕ) (b : GBlock) (hne : g2 ≠ g) :
    group_entry (add_to_groups gs g2 b) g = group_entry gs g := by
  induction gs with
  | nil =>
    have hd : (decide (g2 = g)) = false := by simpa using hne
    unfold add_to_groups group_entry
    simp only [List.find?, hd]
  | cons e t ih =>
    obtain ⟨k, l⟩ := e
    unfold add_to_groups
    by_cases hk : k = g2
    · subst hk
      have hd : (decide (k = g)) = false := by simpa using hne
      simp only [if_pos rfl]
      unfold group_entry
      simp only [List.find?, hd]
    · simp only [if_neg hk]
      unfold group_entry
      by_cases hkg : k = g
      · have hd : (decide (k = g)) = true := by simpa using hkg
        simp only [List.find?, hd]
      · have hd : (decide (k = g)) = false := by simpa using hkg
        simp only [List.find?, hd]
        exact ih

theorem groups_fold_entry (p : GBlock → Bool) (l : List GBlock)
    (gs : List (Option ℕ × List GBlock)) (g : Option ℕ) :
    group_entry
      (l.foldl
        (fun gs b => if p b then add_to_groups gs b.group_id b else gs) gs)
      g =
      group_entry gs g ++
        l.filter (fun b => p b && decide (b.group_id = g)) := by
  induction l generalizing gs with
  | nil => simp
  | cons b t ih =>
    simp only [List.foldl_cons]
    by_cases hp : p b = true
    · by_cases hg : b.group_id = g
      · rw [if_pos hp, hg, ih, group_entry_add_same,
          List.filter_cons_of_pos (by simp [hp, hg]), List.append_assoc]
        simp
      · rw [if_pos hp, ih, group_entry_add_other _ _ _ _ hg,
          List.filter_cons_of_neg (by simp [hg])]
    · rw [if_neg hp, ih, List.filter_cons_of_neg (by simp [hp])]

/-- The key list of a group association list. -/
def group_keys (gs : List (Option ℕ × List GBlock)) : List (Option ℕ) :=
  gs.map (fun e => e.1)

theorem group_keys_add_subset (gs : List (Option ℕ × List GBlock))
    (g : Option ℕ) (b : GBlock) (x : Option ℕ)
    (hx : x ∈ group_keys (add_to_groups gs g b)) :
    x ∈ group_keys gs ∨ x = g := by
  induction gs with
  | nil => simpa [add_to_groups, group_keys] using hx
  | cons e t ih =>
    obtain ⟨k, l⟩ := e
    unfold add_to_groups at hx
    by_cases hk : k = g
    · rw [if_pos hk] at hx
      simp only [group_keys, List.map_cons, List.mem_cons] at hx ⊢
      rcases hx with hxk | hx2
      · exact Or.inl (Or.inl hxk)
      · exact Or.inl (Or.inr hx2)
    · rw [if_neg hk] at hx
      simp only [group_keys, List.map_cons, List.mem_cons] at hx ⊢
      rcases hx with hxk | hx2
      · exact Or.inl (Or.inl hxk)
      · rcases ih hx2 with hin | hxg
        · exact Or.inl (Or.inr (by simpa [group_keys] using hin))
        · exact Or.inr hxg

theorem group_keys_add_nodup (gs : List (Option ℕ × List GBlock))
    (g : Option ℕ) (b : GBlock) (hN : (group_keys gs).Nodup) :
    (group_keys (add_to_groups gs g b)).Nodup := by
  induction gs with
  | nil => simp [add_to_groups, group_keys]
  | cons e t ih =>
    obtain ⟨k, l⟩ := e
    simp only [group_keys, List.map_cons, List.nodup_cons] at hN
    unfold add_to_groups
    by_cases hk : k = g
    · rw [if_pos hk]
      simp only [group_keys, List.map_cons, List.nodup_cons]
      exact ⟨by simpa [group_keys] using hN.1, hN.2⟩
    · rw [if_neg hk]
      simp only [group_keys, List.map_cons, List.nodup_cons]
      refine ⟨?_, ih hN.2⟩
      intro hkin
      rcases group_keys_add_subset t g b k (by simpa [group_keys] using hkin)
        with hin | hkg
      · exact hN.1 (by simpa [group_keys] using hin)
      · exact hk hkg

theorem groups_fold_keys_nodup (p : GBlock → Bool) (l : List GBlock)
    (gs : List (Option ℕ × List GBlock)) (hN : (group_keys gs).Nodup) :
    (group_keys
      (l.foldl
        (fun gs b => if p b then add_to_groups gs b.group_id b else gs)
        gs)).Nodup := by
  induction l generalizing gs with
  | nil => exact hN
  | cons b t ih =>
    simp only [List.foldl_cons]
    by_cases hp : p b = true
    · rw [if_pos hp]
      exact ih _ (group_keys_add_nodup gs b.group_id b hN)
    · rw [if_neg hp]
      exact ih _ hN

theorem group_entry_of_mem (gs : List (Option ℕ × List GBlock))
    (hN : (group_keys gs).Nodup) (e : Option ℕ × List GBlock)
    (he : e ∈ gs) : group_entry gs e.1 = e.2 := by
  induction gs with
  | nil => exact absurd he (List.not_mem_nil e)
  | cons hd t ih =>
    simp only [group_keys, List.map_cons, List.nodup_cons] at hN
    rcases List.mem_cons.mp he with rfl | he2
    · unfold group_entry
      simp [List.find?]
    · have hne : hd.1 ≠ e.1 := by
        intro hcontra
        exact hN.1 (by
          simp only [group_keys, List.mem_map]
          exact ⟨e, he2, hcontra.symm⟩)
      unfold group_entry
      have hd2 : (decide (hd.1 = e.1)) = false := by simpa using hne
      simp only [List.find?, hd2]
      exact ih hN.2 he2

theorem join_add_to_groups_perm (gs : List (Option ℕ × List GBlock))
    (g : Option ℕ) (b : GBlock) :
    List.Perm (((add_to_groups gs g b).map (fun e => e.2)).flatten)
      (((gs.map (fun e => e.2)).flatten) ++ [b]) := by
  induction gs with
  | nil => simp [add_to_groups]
  | cons e t ih =>
    obtain ⟨k, l⟩ := e
    unfold add_to_groups
    by_cases hk : k = g
    · rw [if_pos hk]
      simp only [List.map_cons, List.flatten_cons, List.append_assoc]
      exact List.Perm.append_left l List.perm_append_comm
    · rw [if_neg hk]
      simp only [List.map_cons, List.flatten_cons, List.append_assoc]
      exact List.Perm.append_left l ih

theorem groups_fold_join_perm (p : GBlock → Bool) (l : List GBlock)
    (gs : List (Option ℕ × List GBlock)) :
    List.Perm
      (((l.foldl
        (fun gs b => if p b then add_to_groups gs b.group_id b else gs)
        gs).map (fun e => e.2)).flatten)
      (((gs.map (fun e => e.2)).flatten) ++ l.filter p) := by
  induction l generalizing gs with
  | nil => simp
  | cons b t ih =>
    simp only [List.foldl_cons]
    by_cases hp : p b = true
    · rw [if_pos hp, List.filter_cons_of_pos hp]
      refine List.Perm.trans (ih _) ?_
      refine List.Perm.trans
        (List.Perm.append_right _ (join_add_to_groups_perm gs b.group_id b)) ?_
      rw [List.append_assoc]
      exact List.Perm.append_left _ List.perm_middle.symm
    · rw [if_neg hp, List.filter_cons_of_neg hp]
      exact ih gs

theorem insert_by_index_perm (b : GBlock) (l : List GBlock) :
    List.Perm (insert_by_index b l) (b :: l) := by
  induction l with
  | nil => simp [insert_by_index]
  | cons h t ih =>
    unfold insert_by_index
    by_cases hle : b.index ≤ h.index
    · rw [if_pos hle]
    · rw [if_neg hle]
      exact List.Perm.trans (List.Perm.cons h ih) (List.Perm.swap b h t)

theorem sort_blocks_by_index_perm (l : List GBlock) :
    List.Perm (sort_blocks_by_index l) l := by
  induction l with
  | nil => simp [sort_blocks_by_index]
  | cons b t ih =>
    unfold sort_blocks_by_index
    simp only [List.foldr_cons]
    exact List.Perm.trans (insert_by_index_perm b _) (List.Perm.cons b ih)

theorem image_table_fragment_exclusive (bt : BlockType) :
    ¬ (is_image_fragment bt = true ∧ is_table_fragment bt = true) := by
  cases bt <;> simp [is_image_fragment, is_table_fragment]

theorem three_filter_partition_perm (l : List GBlock) :
    List.Perm
      (l.filter (fun b =>
        !(is_image_fragment b.btype) && !(is_table_fragment b.btype)) ++
       (l.filter (fun b => is_image_fragment b.btype) ++
        l.filter (fun b => is_table_fragment b.btype))) l := by
  apply List.perm_iff_count.mpr
  intro a
  have hneg : ∀ p : GBlock → Bool, p a = false →
      (l.filter p).count a = 0 := by
    intro p hp
    apply List.count_eq_zero.mpr
    intro hmem
    have := (List.mem_filter.mp hmem).2
    rw [hp] at this
    exact Bool.false_ne_true this
  simp only [List.count_append]
  by_cases hi : is_image_fragment a.btype = true
  · have ht : is_table_fragment a.btype = false := by
      by_contra hcontra
      exact image_table_fragment_exclusive a.btype
        ⟨hi, by simpa using hcontra⟩
    rw [List.count_filter (p := fun (b : GBlock) => is_image_fragment b.btype)
        (by simpa using hi),
      hneg (fun b => !(is_image_fragment b.btype) &&
        !(is_table_fragment b.btype)) (by simp [hi]),
      hneg (fun b => is_table_fragment b.btype) ht]
    omega
  · have hi2 : is_image_fragment a.btype = false := by simpa using hi
    by_cases ht : is_table_fragment a.btype = true
    · rw [List.count_filter (p := fun (b : GBlock) => is_table_fragment b.btype)
          (by simpa using ht),
        hneg (fun b => !(is_image_fragment b.btype) &&
          !(is_table_fragment b.btype)) (by simp [ht]),
        hneg (fun b => is_image_fragment b.btype) hi2]
      omega
    · have ht2 : is_table_fragment a.btype = false := by simpa using ht
      rw [List.count_filter (p := fun (b : GBlock) =>
          !(is_image_fragment b.btype) && !(is_table_fragment b.btype))
          (by simp [hi2, ht2]),
        hneg (fun b => is_image_fragment b.btype) hi2,
        hneg (fun b => is_table_fragment b.btype) ht2]
      omega

theorem flatten_plain_eq (l : List GBlock) :
    flatten_group_blocks (l.map RBlock.plain) = l := by
  induction l with
  | nil => rfl
  | cons b t ih =>
    simp only [List.map_cons, flatten_group_blocks, List.flatten_cons]
    simpa [flatten_group_blocks] using ih

theorem flatten_sorted_entries_perm
    (gs : List (Option ℕ × List GBlock)) :
    List.Perm ((gs.map (fun e => sort_blocks_by_index e.2)).flatten)
      ((gs.map (fun e => e.2)).flatten) := by
  induction gs with
  | nil => rfl
  | cons e t ih =>
    simp only [List.map_cons, List.flatten_cons]
    exact List.Perm.append (sort_blocks_by_index_perm e.2) ih

theorem flatten_group_blocks_append (x y : List RBlock) :
    flatten_group_blocks (x ++ y) =
      flatten_group_blocks x ++ flatten_group_blocks y := by
  simp [flatten_group_blocks]

theorem flatten_plain_sorted_eq (l : List GBlock) :
    flatten_group_blocks ((l.map RBlock.plain).map sort_composite_children) =
      l := by
  induction l with
  | nil => rfl
  | cons b t ih =>
    simp only [List.map_cons, flatten_group_blocks, List.flatten_cons,
      sort_composite_children]
    simpa [flatten_group_blocks] using ih

theorem flatten_image_comps_sorted (gs : List (Option ℕ × List GBlock)) :
    flatten_group_blocks
      ((gs.map (fun e => RBlock.comp
        (process_block_list e.2 BlockType.ImageBody BlockType.Image))).map
        sort_composite_children) =
      (gs.map (fun e => sort_blocks_by_index e.2)).flatten := by
  induction gs with
  | nil => rfl
  | cons e t ih =>
    simp only [List.map_cons, flatten_group_blocks, List.flatten_cons,
      sort_composite_children, process_block_list]
    simpa [flatten_group_blocks] using ih

theorem flatten_table_comps_sorted (gs : List (Option ℕ × List GBlock)) :
    flatten_group_blocks
      ((gs.map (fun e => RBlock.comp
        (process_block_list e.2 BlockType.TableBody BlockType.Table))).map
        sort_composite_children) =
      (gs.map (fun e => sort_blocks_by_index e.2)).flatten := by
  induction gs with
  | nil => rfl
  | cons e t ih =>
    simp only [List.map_cons, flatten_group_blocks, List.flatten_cons,
      sort_composite_children, process_block_list]
    simpa [flatten_group_blocks] using ih

/-- C7: composite regrouping round trip.  Flattening the children of the
reverted (and child-sorted) block list is a permutation of the original
per-fragment block list; and every image (resp. table) group entry built
by `revert_group_blocks` collects exactly the input fragments carrying its
group id, in input order, with the composite's `blocks` equal to that
list, its `bbox` the first body member's bbox, its `index` the median of
the members' indices, and the sorted children's bboxes a permutation of
the original per-fragment bboxes of that group. -/
theorem C7_composite_regroup_roundtrip (blocks : List GBlock) :
    List.Perm
      (flatten_group_blocks
        ((revert_group_blocks blocks).map sort_composite_children))
      blocks ∧
    (∀ e ∈ image_groups_of blocks,
      e.2 = blocks.filter (fun b =>
        is_image_fragment b.btype && decide (b.group_id = e.1)) ∧
      (process_block_list e.2 BlockType.ImageBody BlockType.Image).blocks =
        e.2 ∧
      (process_block_list e.2 BlockType.ImageBody BlockType.Image).bbox =
        (e.2.find? (fun b => decide (b.btype = BlockType.ImageBody))).map
          (fun b => b.bbox) ∧
      (process_block_list e.2 BlockType.ImageBody BlockType.Image).index =
        statistics_median (e.2.map (fun b => b.index)) ∧
      List.Perm ((sort_blocks_by_index e.2).map (fun b => b.bbox))
        ((blocks.filter (fun b =>
          is_image_fragment b.btype && decide (b.group_id = e.1))).map
          (fun b => b.bbox))) ∧
    (∀ e ∈ table_groups_of blocks,
      e.2 = blocks.filter (fun b =>
        is_table_fragment b.btype && decide (b.group_id = e.1)) ∧
      (process_block_list e.2 BlockType.TableBody BlockType.Table).blocks =
        e.2 ∧
      List.Perm ((sort_blocks_by_index e.2).map (fun b => b.bbox))
        ((blocks.filter (fun b =>
          is_table_fragment b.btype && decide (b.group_id = e.1))).map
          (fun b => b.bbox))) := by
  have hentry : ∀ (p : GBlock → Bool)
      (e : Option ℕ × List GBlock),
      e ∈ blocks.foldl
        (fun gs b => if p b then add_to_groups gs b.group_id b else gs)
        [] →
      e.2 = blocks.filter (fun b => p b && decide (b.group_id = e.1)) := by
    intro p e he
    have hkeys := groups_fold_keys_nodup p blocks [] (by simp [group_keys])
    have h1 := group_entry_of_mem _ hkeys e he
    have h2 := groups_fold_entry p blocks [] e.1
    have h0 : group_entry ([] : List (Option ℕ × List GBlock)) e.1 = [] := by
      simp [group_entry, List.find?]
    rw [h1, h0] at h2
    simpa using h2
  refine ⟨?_, ?_, ?_⟩
  · unfold revert_group_blocks
    rw [List.map_append, List.map_append, flatten_group_blocks_append,
      flatten_group_blocks_append, flatten_plain_sorted_eq,
      flatten_image_comps_sorted, flatten_table_comps_sorted,
      List.append_assoc]
    refine List.Perm.trans ?_ (three_filter_partition_perm blocks)
    refine List.Perm.append_left _ (List.Perm.append ?_ ?_)
    · refine List.Perm.trans (flatten_sorted_entries_perm _) ?_
      have := groups_fold_join_perm (fun b => is_image_fragment b.btype)
        blocks []
      simpa [image_groups_of] using this
    · refine List.Perm.trans (flatten_sorted_entries_perm _) ?_
      have := groups_fold_join_perm (fun b => is_table_fragment b.btype)
        blocks []
      simpa [table_groups_of] using this
  · intro e he
    have h1 := hentry (fun b => is_image_fragment b.btype) e
      (by simpa [image_groups_of] using he)
    refine ⟨h1, rfl, rfl, rfl, ?_⟩
    rw [← h1]
    exact List.Perm.map _ (sort_blocks_by_index_perm e.2)
  · intro e he
    have h1 := hentry (fun b => is_table_fragment b.btype) e
      (by simpa [table_groups_of] using he)
    refine ⟨h1, rfl, ?_⟩
    rw [← h1]
    exact List.Perm.map _ (sort_blocks_by_index_perm e.2)

/-- Witness for C7 at a concrete three-block page: one image body plus
caption in group 0 and one passthrough text block. -/
theorem C7_composite_regroup_roundtrip_witness :
    (some 0, [GBlock.mk BlockType.ImageBody (BBox.mk 0 0 10 10) (some 0) 2,
              GBlock.mk BlockType.ImageCaption (BBox.mk 0 10 10 12)
                (some 0) 1]) ∈
      image_groups_of
        [GBlock.mk BlockType.ImageBody (BBox.mk 0 0 10 10) (some 0) 2,
         GBlock.mk BlockType.ImageCaption (BBox.mk 0 10 10 12) (some 0) 1,
         GBlock.mk BlockType.Text (BBox.mk 0 20 10 30) none 0] ∧
    [GBlock.mk BlockType.ImageBody (BBox.mk 0 0 10 10) (some 0) 2,
     GBlock.mk BlockType.ImageCaption (BBox.mk 0 10 10 12) (some 0) 1] =
      ([GBlock.mk BlockType.ImageBody (BBox.mk 0 0 10 10) (some 0) 2,
        GBlock.mk BlockType.ImageCaption (BBox.mk 0 10 10 12) (some 0) 1,
        GBlock.mk BlockType.Text (BBox.mk 0 20 10 30) none 0].filter
        (fun b => is_image_fragment b.btype && decide (b.group_id = some 0))) ∧
    List.Perm
      (flatten_group_blocks
        ((revert_group_blocks
          [GBlock.mk BlockType.ImageBody (BBox.mk 0 0 10 10) (some 0) 2,
           GBlock.mk BlockType.ImageCaption (BBox.mk 0 10 10 12) (some 0) 1,
           GBlock.mk BlockType.Text (BBox.mk 0 20 10 30) none 0]).map
          sort_composite_children))
      [GBlock.mk BlockType.ImageBody (BBox.mk 0 0 10 10) (some 0) 2,
       GBlock.mk BlockType.ImageCaption (BBox.mk 0 10 10 12) (some 0) 1,
       GBlock.mk BlockType.Text (BBox.mk 0 20 10 30) none 0] := by
  have hmem : (some 0,
      [GBlock.mk BlockType.ImageBody (BBox.mk 0 0 10 10) (some 0) 2,
       GBlock.mk BlockType.ImageCaption (BBox.mk 0 10 10 12) (some 0) 1]) ∈
      image_groups_of
        [GBlock.mk BlockType.ImageBody (BBox.mk 0 0 10 10) (some 0) 2,
         GBlock.mk BlockType.ImageCaption (BBox.mk 0 10 10 12) (some 0) 1,
         GBlock.mk BlockType.Text (BBox.mk 0 20 10 30) none 0] := by
    with_unfolding_all decide
  have h := C7_composite_regroup_roundtrip
    [GBlock.mk BlockType.ImageBody (BBox.mk 0 0 10 10) (some 0) 2,
     GBlock.mk BlockType.ImageCaption (BBox.mk 0 10 10 12) (some 0) 1,
     GBlock.mk BlockType.Text (BBox.mk 0 20 10 30) none 0]
  exact ⟨hmem, (h.2.1 _ hmem).1, h.1⟩
